import Mathlib

/-!
Verification development for the Fynix Library Builder catalog
synchronization helpers (`helpers/updatemovies.py`, `helpers/updatecats.py`,
`helpers/updatelive.py`, `helpers/updateseries.py`,
`helpers/updatemoviemetadata.py`, `helpers/updateseriesmetadata.py`,
`helpers/defaultepggrabber.py`).

The Python sources are shallowly embedded: JSON payloads become the `JVal`
inductive, SQLite tables become Lean lists of row structures, strings
manipulated character-wise become `List Char`, and wall-clock instants become
integer seconds.  Fallible operations return `Option` or a `Bool` success
flag, mirroring the `try/except` structure of the source.
-/

/-- A JSON value as produced by `response.json()` / stored in Python dicts.
Object fields are kept as an association list; `json.loads` keeps the last
occurrence of a duplicated key, so lookups take the last binding.
JSON numbers that are not integers do not occur in the claims under study and
are represented by their string form where needed. -/
inductive JVal where
  | jnull : JVal
  | jbool : Bool → JVal
  | jint : Int → JVal
  | jstr : String → JVal
  | jlist : List JVal → JVal
  | jobj : List (String × JVal) → JVal

mutual

/-- Decidable equality on JSON values (the `deriving` handler does not cover
this nested inductive, so the decision procedure is spelled out). -/
def decEqJVal : (a b : JVal) → Decidable (a = b)
  | .jnull, .jnull => isTrue rfl
  | .jbool a, .jbool b =>
      if h : a = b then isTrue (by rw [h]) else isFalse (fun hh => h (by injection hh))
  | .jint a, .jint b =>
      if h : a = b then isTrue (by rw [h]) else isFalse (fun hh => h (by injection hh))
  | .jstr a, .jstr b =>
      if h : a = b then isTrue (by rw [h]) else isFalse (fun hh => h (by injection hh))
  | .jlist a, .jlist b =>
      match decEqJValList a b with
      | isTrue h => isTrue (by rw [h])
      | isFalse h => isFalse (fun hh => h (by injection hh))
  | .jobj a, .jobj b =>
      match decEqJValFields a b with
      | isTrue h => isTrue (by rw [h])
      | isFalse h => isFalse (fun hh => h (by injection hh))
  | .jnull, .jbool _ => isFalse (fun h => JVal.noConfusion h)
  | .jnull, .jint _ => isFalse (fun h => JVal.noConfusion h)
  | .jnull, .jstr _ => isFalse (fun h => JVal.noConfusion h)
  | .jnull, .jlist _ => isFalse (fun h => JVal.noConfusion h)
  | .jnull, .jobj _ => isFalse (fun h => JVal.noConfusion h)
  | .jbool _, .jnull => isFalse (fun h => JVal.noConfusion h)
  | .jbool _, .jint _ => isFalse (fun h => JVal.noConfusion h)
  | .jbool _, .jstr _ => isFalse (fun h => JVal.noConfusion h)
  | .jbool _, .jlist _ => isFalse (fun h => JVal.noConfusion h)
  | .jbool _, .jobj _ => isFalse (fun h => JVal.noConfusion h)
  | .jint _, .jnull => isFalse (fun h => JVal.noConfusion h)
  | .jint _, .jbool _ => isFalse (fun h => JVal.noConfusion h)
  | .jint _, .jstr _ => isFalse (fun h => JVal.noConfusion h)
  | .jint _, .jlist _ => isFalse (fun h => JVal.noConfusion h)
  | .jint _, .jobj _ => isFalse (fun h => JVal.noConfusion h)
  | .jstr _, .jnull => isFalse (fun h => JVal.noConfusion h)
  | .jstr _, .jbool _ => isFalse (fun h => JVal.noConfusion h)
  | .jstr _, .jint _ => isFalse (fun h => JVal.noConfusion h)
  | .jstr _, .jlist _ => isFalse (fun h => JVal.noConfusion h)
  | .jstr _, .jobj _ => isFalse (fun h => JVal.noConfusion h)
  | .jlist _, .jnull => isFalse (fun h => JVal.noConfusion h)
  | .jlist _, .jbool _ => isFalse (fun h => JVal.noConfusion h)
  | .jlist _, .jint _ => isFalse (fun h => JVal.noConfusion h)
  | .jlist _, .jstr _ => isFalse (fun h => JVal.noConfusion h)
  | .jlist _, .jobj _ => isFalse (fun h => JVal.noConfusion h)
  | .jobj _, .jnull => isFalse (fun h => JVal.noConfusion h)
  | .jobj _, .jbool _ => isFalse (fun h => JVal.noConfusion h)
  | .jobj _, .jint _ => isFalse (fun h => JVal.noConfusion h)
  | .jobj _, .jstr _ => isFalse (fun h => JVal.noConfusion h)
  | .jobj _, .jlist _ => isFalse (fun h => JVal.noConfusion h)

/-- Decidable equality on lists of JSON values. -/
def decEqJValList : (a b : List JVal) → Decidable (a = b)
  | [], [] => isTrue rfl
  | [], _ :: _ => isFalse (fun h => List.noConfusion h)
  | _ :: _, [] => isFalse (fun h => List.noConfusion h)
  | x :: xs, y :: ys =>
      match decEqJVal x y, decEqJValList xs ys with
      | isTrue h1, isTrue h2 => isTrue (by rw [h1, h2])
      | isFalse h1, _ => isFalse (fun h => h1 (by injection h))
      | _, isFalse h2 => isFalse (fun h => h2 (by injection h))

/-- Decidable equality on JSON object field lists. -/
def decEqJValFields : (a b : List (String × JVal)) → Decidable (a = b)
  | [], [] => isTrue rfl
  | [], _ :: _ => isFalse (fun h => List.noConfusion h)
  | _ :: _, [] => isFalse (fun h => List.noConfusion h)
  | (k1, v1) :: xs, (k2, v2) :: ys =>
      match decEq k1 k2, decEqJVal v1 v2, decEqJValFields xs ys with
      | isTrue h0, isTrue h1, isTrue h2 => isTrue (by rw [h0, h1, h2])
      | isFalse h0, _, _ =>
          isFalse (fun h => h0 (by injection h with h3 h4; injection h3))
      | _, isFalse h1, _ =>
          isFalse (fun h => h1 (by injection h with h3 h4; injection h3))
      | _, _, isFalse h2 => isFalse (fun h => h2 (by injection h))

end

instance : DecidableEq JVal := decEqJVal

namespace JVal

/-- Dictionary lookup `d.get(k)`: `none` models Python `None` for a missing
key; a stored JSON `null` is returned as `some .jnull` (Python also sees
`None` there, and call sites treat the two alike where it matters). -/
def jget : JVal → String → Option JVal
  | .jobj fs, k => ((fs.filter (fun p => p.1 == k)).getLast?).map (fun p => p.2)
  | _, _ => none

/-- Python truthiness of a decoded JSON value. -/
def pyTruthy : JVal → Bool
  | .jnull => false
  | .jbool b => b
  | .jint n => n != 0
  | .jstr s => s != ""
  | .jlist xs => !xs.isEmpty
  | .jobj fs => !fs.isEmpty

/-- Whether the top-level JSON value is a list (`isinstance(x, list)`). -/
def isList : JVal → Bool
  | .jlist _ => true
  | _ => false

/-- `d.get(k)` collapsed through the `if ... is None` check of the source:
an absent key and a stored JSON null both read as Python `None`. -/
def jgetVal (sd : JVal) (key : String) : Option JVal :=
  match sd.jget key with
  | none => none
  | some .jnull => none
  | some v => some v

end JVal

/-! ### Character-level string helpers shared by the embeddings

Strings that the Python code slices, splits and strips are modelled as
`List Char`. -/

/-- The character list of a string literal. -/
def chars (s : String) : List Char := s.data

/-- Python `str.strip()` (restricted to ASCII whitespace, the only
whitespace appearing in the data under study). -/
def pyStrip (l : List Char) : List Char :=
  ((l.dropWhile Char.isWhitespace).reverse.dropWhile Char.isWhitespace).reverse

/-- Value of a non-empty decimal digit string. -/
def digitsToNat (l : List Char) : Nat :=
  l.foldl (fun acc c => acc * 10 + (c.toNat - '0'.toNat)) 0

/-- Python `int(s)` on a string: strips whitespace, accepts an optional
sign followed by decimal digits, raises (here: `none`) otherwise.
(The rarely-used underscore separators of Python int literals are not
modelled; they do not occur in the data under study.) -/
def pyInt (l : List Char) : Option Int :=
  match pyStrip l with
  | [] => none
  | cHead :: rest =>
      if cHead = '-' then
        if !rest.isEmpty && rest.all Char.isDigit then some (-(digitsToNat rest : Int)) else none
      else if cHead = '+' then
        if !rest.isEmpty && rest.all Char.isDigit then some (digitsToNat rest : Int) else none
      else if (cHead :: rest).all Char.isDigit then some (digitsToNat (cHead :: rest) : Int)
      else none

/-- Python `s.split(sep)` for a single-character separator. -/
def splitOnChar (c : Char) : List Char → List (List Char)
  | [] => [[]]
  | x :: xs =>
      if x = c then [] :: splitOnChar c xs
      else
        match splitOnChar c xs with
        | [] => [[x]]
        | h :: t => (x :: h) :: t

/-- Python `s.rstrip("/")`. -/
def rstripSlash (l : List Char) : List Char :=
  (l.reverse.dropWhile (· == '/')).reverse

/-- Whether Python `float(s)` succeeds on a string: optional sign, then
digits with at most one decimal point and at least one digit.  (The exotic
`inf`/`nan`/exponent forms are not modelled; only success or failure of the
conversion is used by the claims.) -/
def floatLitOK (l : List Char) : Bool :=
  let t := pyStrip l
  let body := match t with
    | '+' :: r => r
    | '-' :: r => r
    | r => r
  match splitOnChar '.' body with
  | [a] => !a.isEmpty && a.all Char.isDigit
  | [a, b] => (!a.isEmpty || !b.isEmpty) && a.all Char.isDigit && b.all Char.isDigit
  | _ => false

/-- Whether Python `float(x)` succeeds on a decoded JSON value. -/
def pyFloatParses : JVal → Bool
  | .jint _ => true
  | .jbool _ => true
  | .jstr s => floatLitOK s.data
  | _ => false

/-- Python `int(x)` on a decoded JSON value (`none` models the raised
`TypeError`/`ValueError`). -/
def pyIntOfJVal : JVal → Option Int
  | .jint n => some n
  | .jbool b => some (if b then 1 else 0)
  | .jstr s => pyInt s.data
  | _ => none

/-! ### The TTL response cache (`updatecats.py` lines 60-114)

A cache record on disk is modelled by its modification instant (integer
seconds, standing for the file mtime that `_is_cache_valid` compares) and its
stored payload.  Only well-formed pickle records are modelled; a corrupted
record makes `_load_from_cache` return `None` just like a missing one. -/

namespace UpdateCats

/-- One cache file: modification time (seconds) and stored list payload. -/
structure CacheRecord where
  mtime : Int
  data : List JVal
deriving DecidableEq

/-- `XtreamCategoriesDownloader._is_cache_valid`: the file exists and
`file_modified > now - timedelta(hours=cache_hours)`. -/
def is_cache_valid (rec : Option CacheRecord) (now : Int) (cacheHours : Int) : Bool :=
  match rec with
  | none => false
  | some r => decide (r.mtime > now - cacheHours * 3600)

/-- `XtreamCategoriesDownloader._load_from_cache`: returns the stored payload
when the record is valid, `None` otherwise. -/
def load_from_cache (rec : Option CacheRecord) (now : Int) (cacheHours : Int) :
    Option (List JVal) :=
  match rec with
  | none => none
  | some r => if is_cache_valid (some r) now cacheHours then some r.data else none

end UpdateCats

namespace UpdateMovies

/-- Python `f"{n:02d}"`: zero-pad to at least two characters. -/
def pad2 (n : Nat) : List Char :=
  if n < 10 then '0' :: chars (Nat.repr n) else chars (Nat.repr n)

/-- `XtreamVODStreamsDownloader.parse_duration` (`updatemovies.py` lines
382-415): returns `(seconds, formatted)`.  A plain digit string is taken as
seconds and formatted as `HH:MM:SS`; a string containing `:` is split and
read as `[HH:]MM:SS` (falling through to `(None, stripped)` when an `int()`
conversion raises); anything else yields no seconds.  The argument is the
string form of the incoming value (the source applies `str(...)` first);
an empty input is falsy and short-circuits to `(None, None)`. -/
def parse_duration (s : List Char) : Option Int × Option (List Char) :=
  if s.isEmpty then (none, none)
  else
    let t := pyStrip s
    if !t.isEmpty && t.all Char.isDigit then
      let seconds := digitsToNat t
      (some (seconds : Int),
        some (pad2 (seconds / 3600) ++ ':' ::
          (pad2 (seconds % 3600 / 60) ++ ':' :: pad2 (seconds % 60))))
    else if t.contains ':' then
      let parts := splitOnChar ':' t
      if parts.length ≥ 2 then
        match (if parts.length > 2 then pyInt (parts.headD []) else some 0),
            pyInt (parts.getD (parts.length - 2) []),
            pyInt (parts.getD (parts.length - 1) []) with
        | some h, some m, some sec => (some (h * 3600 + m * 60 + sec), some t)
        | _, _, _ => (none, some t)
      else (none, some t)
    else (none, some t)

end UpdateMovies

/-! ### URL building

`updatemovies.py` builds the API URL by hand; `updatecats.py`,
`updateseries.py` and `defaultepggrabber.py` use `urllib.parse.urljoin` with
the absolute path `/player_api.php` (resp. `/xmltv.php`), which per RFC 3986
keeps the scheme and authority of the base and replaces its whole path.
`urljoinAbs` models `urljoin` for exactly this absolute-path use.  The
`port` column of the servers table is an integer or SQL `NULL` (Python
`None`); `none` models `NULL`, and `0`/`None` are falsy in the
`if port and ...` guards. -/

/-- The scheme separator `"://"` of `base_url.split("://", 1)`. -/
def schemeSep : List Char := [':', '/', '/']

/-- The characters of `"http://"`. -/
def httpScheme : List Char := ['h', 't', 't', 'p', ':', '/', '/']

/-- The characters of `"https://"`. -/
def httpsScheme : List Char := ['h', 't', 't', 'p', 's', ':', '/', '/']

/-- Python `s.split(sep, 1)[1]`: everything after the first occurrence of
the separator (callers guarantee the separator occurs). -/
def afterMarker (sep : List Char) : List Char → List Char
  | [] => []
  | c :: cs => if sep.isPrefixOf (c :: cs) then (c :: cs).drop sep.length else afterMarker sep cs

/-- Python `s.split(sep, 1)[0]`: everything before the first occurrence of
the separator. -/
def beforeMarker (sep : List Char) : List Char → List Char
  | [] => []
  | c :: cs => if sep.isPrefixOf (c :: cs) then [] else c :: beforeMarker sep cs

/-- `base_url.startswith(("http://", "https://"))`. -/
def hasScheme (u : List Char) : Bool :=
  httpScheme.isPrefixOf u || httpsScheme.isPrefixOf u

/-- The `if not base_url.startswith(...)` defaulting step shared by all the
URL builders. -/
def ensureScheme (u : List Char) : List Char :=
  if hasScheme u then u else httpScheme ++ u

/-- Decimal rendering of the port, as in `f"{base_url}:{port}"`. -/
def natChars (n : Nat) : List Char := chars (Nat.repr n)

/-- The authority (netloc) component `urllib.parse` reads from the part of
the URL after the scheme: everything up to the first `/`, `?` or `#`. -/
def netlocOf (l : List Char) : List Char :=
  l.takeWhile (fun c => c != '/' && c != '?' && c != '#')

/-- `urllib.parse.urljoin(base, path)` for an absolute `path` starting with
`/`: scheme and authority of `base`, then `path`. -/
def urljoinAbs (base path : List Char) : List Char :=
  beforeMarker schemeSep base ++ schemeSep ++ netlocOf (afterMarker schemeSep base) ++ path

/-- A well-formed stored host: non-empty and free of `:`, `/`, `?`, `#`. -/
def cleanHost (host : List Char) : Prop :=
  host ≠ [] ∧ ∀ c ∈ host, c ≠ ':' ∧ c ≠ '/' ∧ c ≠ '?' ∧ c ≠ '#'

instance (host : List Char) : Decidable (cleanHost host) := by
  unfold cleanHost; infer_instance

/-- The port-append step of `updatemovies.build_api_url` (lines 197-202):
`if port and port != 80 and port != 443: if ":" not in base.split("://")[1]:
base += f":{port}"`. -/
def withPortMovies (base0 : List Char) : Option Nat → List Char
  | some p =>
      if p ≠ 0 ∧ p ≠ 80 ∧ p ≠ 443 then
        if (afterMarker schemeSep base0).contains ':' then base0
        else base0 ++ ':' :: natChars p
      else base0
  | none => base0

/-- The port-append step shared verbatim by `updatecats.build_api_url`,
`updateseries.build_api_url` and `defaultepggrabber.build_epg_url`:
`if port and port != 80: ...` — note 443 is not excluded. -/
def withPort80 (base0 : List Char) : Option Nat → List Char
  | some p =>
      if p ≠ 0 ∧ p ≠ 80 then
        if (afterMarker schemeSep base0).contains ':' then base0
        else base0 ++ ':' :: natChars p
      else base0
  | none => base0

namespace UpdateMovies

/-- The query string assembled by `XtreamVODStreamsDownloader.build_api_url`
(lines 211-217): credentials, then optional action and category. -/
def vodParams (username password action category_id : List Char) : List Char :=
  chars "username=" ++ username ++ chars "&password=" ++ password ++
    (if action.isEmpty then [] else chars "&action=" ++ action) ++
    (if category_id.isEmpty then [] else chars "&category_id=" ++ category_id)

/-- `XtreamVODStreamsDownloader.build_api_url` (`updatemovies.py` lines
189-222): default the scheme, append a port only when it is truthy and
neither 80 nor 443 and no `:` occurs after the scheme, strip trailing
slashes, then concatenate `/player_api.php` and the query string. -/
def build_api_url (url : List Char) (port : Option Nat)
    (username password action category_id : List Char) : List Char :=
  rstripSlash (withPortMovies (ensureScheme url) port) ++ chars "/player_api.php" ++ '?' ::
    vodParams username password action category_id

end UpdateMovies

namespace UpdateCats

/-- The query string of `XtreamCategoriesDownloader.build_api_url`. -/
def catParams (username password action : List Char) : List Char :=
  chars "username=" ++ username ++ chars "&password=" ++ password ++
    (if action.isEmpty then [] else chars "&action=" ++ action)

/-- `XtreamCategoriesDownloader.build_api_url` (`updatecats.py` lines
191-208): default the scheme, append a port when it is truthy and not 80
(443 is NOT excluded here, unlike the VOD builder) and no `:` occurs after
the scheme, then `urljoin` with the absolute path `/player_api.php`. -/
def build_api_url (url : List Char) (port : Option Nat)
    (username password action : List Char) : List Char :=
  urljoinAbs (withPort80 (ensureScheme url) port) (chars "/player_api.php") ++ '?' ::
    catParams username password action

end UpdateCats

namespace DefaultEpgGrabber

/-- The query string of `build_epg_url`. -/
def epgParams (username password : List Char) : List Char :=
  chars "username=" ++ username ++ chars "&password=" ++ password

/-- `build_epg_url` (`defaultepggrabber.py` lines 28-38): same shape as the
categories builder (port check `port != 80` only), with path `/xmltv.php`. -/
def build_epg_url (url : List Char) (port : Option Nat)
    (username password : List Char) : List Char :=
  urljoinAbs (withPort80 (ensureScheme url) port) (chars "/xmltv.php") ++ '?' ::
    epgParams username password

end DefaultEpgGrabber

/-! ### HTTP fetching: per-item retry loops and the single-shot listing fetch -/

/-- Outcome of one HTTP attempt, as the source distinguishes them: `netErr`
is any `requests.exceptions.RequestException` (timeout, connection error, or
a non-2xx status raised by `raise_for_status`); `badJson` is a body that
fails JSON decoding (`ValueError`); `ok v` is a decoded JSON body. -/
inductive FetchOutcome where
  | netErr : FetchOutcome
  | badJson : FetchOutcome
  | ok : JVal → FetchOutcome

/-- The retry loop shared by `fetch_metadata_from_api`
(`updatemoviemetadata.py` lines 37-74) and `fetch_series_metadata`
(`updateseriesmetadata.py` lines 35-76): `retries = 3`, initial delay 1
second, delay doubled after each sleep.  `attempts` is the list of attempt
indices still available; `outcomes i` is the result of attempt `i`; the
second component records the sleeps performed.  A network error sleeps and
retries while attempts remain; a JSON decoding error or a list-typed
(non-dict) body returns `None` immediately with no retry. -/
def fetchRetryGo (outcomes : Nat → FetchOutcome) :
    List Nat → Nat → List Nat → Option JVal × List Nat
  | [], _, sleeps => (none, sleeps)
  | i :: rest, delay, sleeps =>
      match outcomes i with
      | .ok (.jlist _) => (none, sleeps)
      | .ok v => (some v, sleeps)
      | .badJson => (none, sleeps)
      | .netErr =>
          if rest.isEmpty then (none, sleeps)
          else fetchRetryGo outcomes rest (delay * 2) (sleeps ++ [delay])

namespace UpdateMovieMetadata

/-- `fetch_metadata_from_api`: three attempts, 1-second initial backoff. -/
def fetch_metadata_from_api (outcomes : Nat → FetchOutcome) : Option JVal × List Nat :=
  fetchRetryGo outcomes [0, 1, 2] 1 []

end UpdateMovieMetadata

namespace UpdateSeriesMetadata

/-- `fetch_series_metadata`: the same three-attempt loop. -/
def fetch_series_metadata (outcomes : Nat → FetchOutcome) : Option JVal × List Nat :=
  fetchRetryGo outcomes [0, 1, 2] 1 []

end UpdateSeriesMetadata

namespace UpdateMovies

/-- The fetch portion of `XtreamVODStreamsDownloader.download_vod_streams`
(`updatemovies.py` lines 263-313): a cache hit returns the cached list with
no network attempt; otherwise ONE request is made — every failure (timeout,
connection error, bad status, bad JSON) and every non-list body yields `[]`.
The second component counts HTTP attempts made; the source has no retry
loop here.  (The cache write for a list body is modelled with the
categories downloader, whose code is identical in shape.) -/
def download_vod_streams (cached : Option (List JVal)) (outcomes : Nat → FetchOutcome) :
    List JVal × Nat :=
  match cached with
  | some data => (data, 0)
  | none =>
      match outcomes 0 with
      | .ok (.jlist xs) => (xs, 1)
      | .ok _ => ([], 1)
      | .badJson => ([], 1)
      | .netErr => ([], 1)

end UpdateMovies

/-! ### EPG importer (`defaultepggrabber.py`) -/

/-- One row of `epg_data` / one parsed `<programme>` entry.  `findtext` and
attribute lookups return `None` for missing parts, so every field is
optional; the table declares `channel_id`, `start_time`, `stop_time` and
`title` NOT NULL with `UNIQUE(channel_id, start_time, title)`
(`setupdb.py`). -/
structure EpgEntry where
  channel_id : Option String
  start_time : Option String
  stop_time : Option String
  title : Option String
  description : Option String
  lang : Option String
  category : Option String
  icon : Option String
deriving DecidableEq

namespace DefaultEpgGrabber

/-- Whether a row satisfies the NOT NULL constraints of `epg_data`. -/
def epgRowOK (e : EpgEntry) : Bool :=
  e.channel_id.isSome && e.start_time.isSome && e.stop_time.isSome && e.title.isSome

/-- Whether two rows collide on `UNIQUE(channel_id, start_time, title)`. -/
def epgKeyEq (a b : EpgEntry) : Bool :=
  a.channel_id == b.channel_id && a.start_time == b.start_time && a.title == b.title

/-- `insert_epg_entries` (lines 102-119): `DELETE FROM epg_data`, then
`INSERT OR IGNORE` of every parsed entry — rows violating NOT NULL or the
unique key are silently skipped by `OR IGNORE`.  The result does not depend
on the rows previously in the table. -/
def insert_epg_entries (_db : List EpgEntry) (entries : List EpgEntry) : List EpgEntry :=
  entries.foldl
    (fun acc e => if epgRowOK e && acc.all (fun r => !epgKeyEq r e) then acc ++ [e] else acc)
    []

/-- The environment `main` (lines 163-200) runs in: whether an active server
row exists, whether the HEAD connection test succeeds, the cache lookup
result, the fetch result (`none` models a raised `RequestException`), and
the behavior of `parse_epg_xml` on raw bytes (the source returns `[]` when
the XML fails to parse).  Raw XML bytes are modelled as `List Nat`. -/
structure EpgWorld where
  serverFound : Bool
  connOk : Bool
  cachedXml : Option (List Nat)
  fetched : Option (List Nat)
  parse : List Nat → List EpgEntry

/-- `main`: return (leaving `epg_data` untouched) when no active server is
found, the connection test fails, no XML is in hand (cache miss together
with a failed or empty download), or the XML parses to zero entries;
otherwise delete the old rows and insert the freshly parsed set.  An empty
cached payload is falsy and falls through to the network fetch, exactly as
`if xml_data:` does. -/
def epgMain (w : EpgWorld) (db : List EpgEntry) : List EpgEntry :=
  if !w.serverFound then db
  else if !w.connOk then db
  else
    let runImport := fun (xml : List Nat) =>
      let entries := w.parse xml
      if entries.isEmpty then db else insert_epg_entries db entries
    let cached := w.cachedXml.getD []
    if !cached.isEmpty then runImport cached
    else
      match w.fetched with
      | none => db
      | some xml => if xml.isEmpty then db else runImport xml

end DefaultEpgGrabber

/-! ### Categories synchronization (`updatecats.py`) -/

namespace UpdateCats

/-- A row of the `categories` table.  The columns not referenced by the
claims (`category_name`, `parent_id`) are omitted.  `category_id` is kept
as the incoming JSON value; SQLite stores it with INTEGER affinity, which
is equality-compatible across the identical-payload runs studied here. -/
structure CatRow where
  server_id : Nat
  category_id : JVal
  content_type : String
deriving DecidableEq

/-- `XtreamCategoriesDownloader.category_exists` (lines 329-340). -/
def category_exists (db : List CatRow) (serverId : Nat) (cid : JVal) (ct : String) : Bool :=
  db.any fun r => r.server_id == serverId && r.category_id == cid && r.content_type == ct

/-- `XtreamCategoriesDownloader.insert_category` (lines 342-365).  The
name/parent normalization does not touch the modelled columns, and the
insert cannot raise for the payloads modelled, so it always succeeds. -/
def insert_category (db : List CatRow) (serverId : Nat) (cid : JVal) (ct : String) :
    List CatRow :=
  db ++ [⟨serverId, cid, ct⟩]

/-- `XtreamCategoriesDownloader.download_categories` (lines 267-327): a
content type outside the action map is rejected; a cache hit returns the
cached payload untouched; a fetched list body is returned and cached; every
error (`resp = none`) and every non-list body yields `[]` with NO cache
write.  The cache is the server's response-cache directory keyed by content
type (the md5 cache key is injective in the content type for a fixed
server); a new write supersedes the old entry. -/
def download_categories (cache : List (String × List JVal)) (ct : String)
    (resp : Option JVal) : List JVal × List (String × List JVal) :=
  if ct ≠ "live" ∧ ct ≠ "vod" ∧ ct ≠ "series" then ([], cache)
  else
    match cache.lookup ct with
    | some data => (data, cache)
    | none =>
        match resp with
        | some (.jlist xs) => (xs, (ct, xs) :: cache)
        | some _ => ([], cache)
        | none => ([], cache)

/-- One record of the per-category loop of
`process_categories_for_server` (lines 389-408): skip non-dicts, skip a
missing/None `category_id`, count an existing `(server, category_id,
content_type)` row, insert otherwise. -/
def catStep (serverId : Nat) (ct : String) (a : List CatRow × Nat × Nat) (c : JVal) :
    List CatRow × Nat × Nat :=
  match c with
  | .jobj _ =>
      match c.jget "category_id" with
      | none => a
      | some .jnull => a
      | some cid =>
          if category_exists a.1 serverId cid ct then (a.1, a.2.1, a.2.2 + 1)
          else (insert_category a.1 serverId cid ct, a.2.1 + 1, a.2.2)
  | _ => a

/-- One content type's pass of `process_categories_for_server` (lines
376-420): download (cache-aware), `continue` when the result is empty,
otherwise process every record and add the batch totals. -/
def processContentType (serverId : Nat) (resp : String → Option JVal)
    (acc : List CatRow × List (String × List JVal) × Nat × Nat × Nat) (ct : String) :
    List CatRow × List (String × List JVal) × Nat × Nat × Nat :=
  let dl := download_categories acc.2.1 ct (resp ct)
  if dl.1.isEmpty then (acc.1, dl.2, acc.2.2.1, acc.2.2.2.1, acc.2.2.2.2)
  else
    let res := dl.1.foldl (catStep serverId ct) (acc.1, 0, 0)
    (res.1, dl.2, acc.2.2.1 + dl.1.length, acc.2.2.2.1 + res.2.1, acc.2.2.2.2 + res.2.2)

/-- `XtreamCategoriesDownloader.process_categories_for_server` (lines
367-426): the three content types in order, returning
`(downloaded, new, existing)` totals along with the updated table and
cache. -/
def process_categories_for_server (db : List CatRow)
    (cache : List (String × List JVal)) (serverId : Nat)
    (resp : String → Option JVal) :
    List CatRow × List (String × List JVal) × Nat × Nat × Nat :=
  ["live", "vod", "series"].foldl (processContentType serverId resp) (db, cache, 0, 0, 0)

end UpdateCats

/-! ### Python str() rendering, needed by the live insert and the metadata
flattening -/

/-- A single-quote character, used by Python `repr` of strings. -/
def pyQuote : String := String.singleton (Char.ofNat 39)

mutual

/-- Python `repr()` of a decoded JSON value: `None`/`True`/`False` spelled
the Python way, strings quoted. -/
def pyRepr : JVal → String
  | .jnull => "None"
  | .jbool true => "True"
  | .jbool false => "False"
  | .jint n => toString n
  | .jstr s => pyQuote ++ s ++ pyQuote
  | .jlist xs => "[" ++ pyReprList xs ++ "]"
  | .jobj fs => "\x7b" ++ pyReprFields fs ++ "\x7d"

/-- Comma-joined `repr`s of list elements. -/
def pyReprList : List JVal → String
  | [] => ""
  | [x] => pyRepr x
  | x :: xs => pyRepr x ++ ", " ++ pyReprList xs

/-- Comma-joined `repr`s of dict items. -/
def pyReprFields : List (String × JVal) → String
  | [] => ""
  | [(k, v)] => pyQuote ++ k ++ pyQuote ++ ": " ++ pyRepr v
  | (k, v) :: fs => pyQuote ++ k ++ pyQuote ++ ": " ++ pyRepr v ++ ", " ++ pyReprFields fs

end

/-- Python `str()` of a decoded JSON value: a string is itself, everything
else renders as its `repr`. -/
def pyStr : JVal → String
  | .jstr s => s
  | v => pyRepr v

/-- Whether the `rating = float(d.get(k, 0.0)) if d.get(k) else 0.0`
pattern completes without raising: the conversion is attempted only on a
truthy value. -/
def ratingConvOK (v : Option JVal) : Bool :=
  match v with
  | none => true
  | some v => if v.pyTruthy then pyFloatParses v else true

/-! ### VOD streams synchronization (`updatemovies.py`) -/

namespace UpdateMovies

/-- A row of the `vod_streams` table, projected onto the columns the claims
reference (`server_id`, `category_id`, `stream_id`); the table has NO
uniqueness constraint on `(server_id, stream_id)`, so nothing but the
explicit existence check prevents duplicates.  `stream_id` is kept as the
incoming JSON value. -/
structure VodKeyRow where
  server_id : Nat
  category_id : Nat
  stream_id : JVal
deriving DecidableEq

/-- `XtreamVODStreamsDownloader.stream_exists` (lines 331-342):
`SELECT 1 FROM vod_streams WHERE server_id = ? AND stream_id = ?`. -/
def stream_exists (db : List VodKeyRow) (serverId : Nat) (sid : JVal) : Bool :=
  db.any fun r => r.server_id == serverId && r.stream_id == sid

/-- The category fallback of `insert_stream` lines 455-466: the remote
category id is converted with `int()` and looked up in the mapping; an
absent/null id, a failed conversion or a missing mapping entry all yield
the default local id 0. -/
def localCategoryId (sd : JVal) (mapping : List (Int × Nat)) : Nat :=
  match sd.jget "category_id" with
  | none => 0
  | some capi =>
      match pyIntOfJVal capi with
      | none => 0
      | some k => (mapping.lookup k).getD 0

/-- `XtreamVODStreamsDownloader.insert_stream` (lines 418-489): a
missing/None `stream_id` returns False; a truthy `rating` or
`rating_5based` that fails `float()` raises `ValueError`, which the final
`except Exception` catches, returning False with no row; otherwise the row
is inserted under `localCategoryId`. -/
def insert_stream (db : List VodKeyRow) (serverId : Nat) (sd : JVal)
    (mapping : List (Int × Nat)) : List VodKeyRow × Bool :=
  match sd.jgetVal "stream_id" with
  | none => (db, false)
  | some sid =>
      if ratingConvOK (sd.jget "rating") && ratingConvOK (sd.jget "rating_5based") then
        (db ++ [⟨serverId, localCategoryId sd mapping, sid⟩], true)
      else (db, false)

/-- One record of the per-stream loop of `process_streams_for_server`
(lines 529-548): skip non-dicts and missing ids, count an existing
`(server, stream_id)` row, otherwise attempt the insert and count it as
new exactly when `insert_stream` succeeds. -/
def vodStep (serverId : Nat) (mapping : List (Int × Nat))
    (a : List VodKeyRow × Nat × Nat) (sd : JVal) : List VodKeyRow × Nat × Nat :=
  match sd with
  | .jobj _ =>
      match sd.jgetVal "stream_id" with
      | none => a
      | some sid =>
          if stream_exists a.1 serverId sid then (a.1, a.2.1, a.2.2 + 1)
          else
            let res := insert_stream a.1 serverId sd mapping
            if res.2 then (res.1, a.2.1 + 1, a.2.2) else (res.1, a.2.1, a.2.2)
  | _ => a

/-- `XtreamVODStreamsDownloader.process_streams_for_server` (lines
491-572), returning `(table, downloaded, new, existing)`.  The source walks
the list in slices of 1000 with a commit between slices; the slices
concatenate back to the whole list, so the loop is modelled as one pass in
the same order. -/
def process_streams_for_server (db : List VodKeyRow) (serverId : Nat)
    (mapping : List (Int × Nat)) (streams : List JVal) :
    List VodKeyRow × Nat × Nat × Nat :=
  if streams.isEmpty then (db, 0, 0, 0)
  else
    let res := streams.foldl (vodStep serverId mapping) (db, 0, 0)
    (res.1, streams.length, res.2.1, res.2.2)

/-- The number of `vod_streams` rows carrying a given
`(server_id, stream_id)` pair. -/
def countPair (db : List VodKeyRow) (serverId : Nat) (sid : JVal) : Nat :=
  (db.filter fun r => r.server_id == serverId && r.stream_id == sid).length

/-- A remote record the insert accepts: a dict with a non-null `stream_id`
whose rating fields pass `float()` conversion. -/
def goodVodRecord (sd : JVal) (sid : JVal) : Prop :=
  (∃ fs, sd = JVal.jobj fs) ∧ sd.jgetVal "stream_id" = some sid ∧
    ratingConvOK (sd.jget "rating") = true ∧ ratingConvOK (sd.jget "rating_5based") = true

end UpdateMovies

/-! ### Series synchronization (`updateseries.py`) -/

namespace UpdateSeries

/-- A row of the `series` table, projected onto the columns the claims
reference.  `category_id` is nullable. -/
structure SeriesRow where
  server_id : Nat
  series_id : Option JVal
  category_id : Option Nat
deriving DecidableEq

/-- `XtreamSeriesDownloader.insert_series` (`updateseries.py` lines
169-195): the local category is
`category_mapping.get(xtream_category_id) if xtream_category_id else None`,
so an absent, falsy or unmapped remote category id leaves the column NULL —
there is no sentinel here, unlike the VOD insert.  A truthy `rating` that
fails `float()` raises `ValueError`, which the `except sqlite3.Error`
clause does NOT catch; the exception propagates to the caller and no row is
inserted (modelled as `(db, false)`). -/
def insert_series (db : List SeriesRow) (serverId : Nat) (sd : JVal)
    (mapping : List (JVal × Nat)) : List SeriesRow × Bool :=
  if ratingConvOK (sd.jget "rating") then
    let categoryId : Option Nat :=
      match sd.jget "category_id" with
      | none => none
      | some v => if v.pyTruthy then mapping.lookup v else none
    (db ++ [⟨serverId, sd.jget "series_id", categoryId⟩], true)
  else (db, false)

end UpdateSeries

/-! ### Live streams synchronization (`updatelive.py`) -/

namespace UpdateLive

/-- A row of the `live_streams` table, projected onto the columns the
claims reference. -/
structure LiveRow where
  server_id : Nat
  category_id : JVal
  stream_id : JVal
deriving DecidableEq

/-- `XtreamLiveStreamsDownloader.insert_stream` (`updatelive.py` lines
196-237): the remote category id is rendered with `str(...)` (default `""`
when the key is absent) and looked up in the identity mapping built from
the server's live categories; a falsy result falls back to the server's
first live category row (`SELECT ... LIMIT 1`, modelled as the head of
`liveCats`, the category ids in table order) or the string `"0"` when the
server has none. -/
def insert_stream (db : List LiveRow) (serverId : Nat) (sd : JVal)
    (mapping : List (String × String)) (liveCats : List JVal) : List LiveRow × Bool :=
  match sd.jgetVal "stream_id" with
  | none => (db, false)
  | some sid =>
      let cidStr := pyStr ((sd.jget "category_id").getD (.jstr ""))
      let dbCat : JVal :=
        match mapping.lookup cidStr with
        | some c => if c ≠ "" then .jstr c else liveCats.headD (.jstr "0")
        | none => liveCats.headD (.jstr "0")
      (db ++ [⟨serverId, dbCat, sid⟩], true)

end UpdateLive

/-! ### Title metadata enrichment (`updatemoviemetadata.py`) -/

namespace UpdateMovieMetadata

/-- `UPDATE_COLUMNS` (lines 30-35): the 23 columns `update_movie`
overwrites. -/
def UPDATE_COLUMNS : List String :=
  ["custom_sid", "direct_source", "plot", "cast", "director", "genre", "release_date",
   "duration_secs", "duration", "video_quality", "tmdb_id", "o_name", "cover_big",
   "movie_image", "youtube_trailer", "actors", "description", "age", "country",
   "backdrop_path", "bitrate", "status", "runtime"]

/-- `normalize_value` (lines 115-123): list values join to `", "`-separated
strings; a Python `None` (absent key or stored JSON null) becomes the
number 0 for `duration_secs` and `bitrate` and the empty string for every
other column; all other values pass through unchanged. -/
def normalize_value (value : Option JVal) (key : String) : JVal :=
  match value with
  | some (.jlist xs) => .jstr (String.intercalate ", " (xs.map pyStr))
  | some .jnull =>
      if key = "duration_secs" ∨ key = "bitrate" then .jint 0 else .jstr ""
  | none =>
      if key = "duration_secs" ∨ key = "bitrate" then .jint 0 else .jstr ""
  | some v => v

/-- Lookup in `flattened = {**info, **movie_data}` (line 131): the
`movie_data` sub-record wins on shared keys.  Sub-records that are not
dicts raise a `TypeError` in the source; the model covers the dict-shaped
payloads the claims are about. -/
def mergedGet (metadata : JVal) (k : String) : Option JVal :=
  match (metadata.jget "movie_data").bind (fun o => o.jget k) with
  | some v => some v
  | none => (metadata.jget "info").bind (fun o => o.jget k)

/-- The flattened lookup after the `releasedate -> release_date` renaming
of lines 134-135: a present `releasedate` overwrites `release_date`. -/
def flattenedGet (metadata : JVal) (key : String) : Option JVal :=
  if key = "release_date" then
    match mergedGet metadata "releasedate" with
    | some v => some v
    | none => mergedGet metadata key
  else mergedGet metadata key

/-- The SET values computed by `update_movie` (lines 137-143), one per
UPDATE column. -/
def movieComputedCols (metadata : JVal) : List (String × JVal) :=
  UPDATE_COLUMNS.map (fun k => (k, normalize_value (flattenedGet metadata k) k))

/-- A `vod_streams` row as the enrichment pass sees it: the key columns
plus the 23 UPDATE columns as an association list. -/
structure VodMetaRow where
  server_id : Nat
  stream_id : JVal
  cols : List (String × JVal)
deriving DecidableEq

/-- `update_movie` (lines 125-159):
`UPDATE vod_streams SET ... WHERE stream_id=?` — the WHERE clause carries
NO `server_id` condition, so every row with the given remote id is
overwritten, whichever server it belongs to. -/
def update_movie (db : List VodMetaRow) (stream_id : JVal) (metadata : JVal) :
    List VodMetaRow :=
  db.map fun r =>
    if r.stream_id == stream_id then { r with cols := movieComputedCols metadata } else r

end UpdateMovieMetadata

/-! ### Series metadata enrichment (`updateseriesmetadata.py`) -/

namespace UpdateSeriesMetadata

/-- `SERIES_UPDATE_COLUMNS` (lines 30-33). -/
def SERIES_UPDATE_COLUMNS : List String :=
  ["rating_5based", "backdrop_path", "youtube_trailer", "tmdb_id",
   "episode_run_time", "category_id", "category_ids"]

/-- `normalize_value` of the series enricher (lines 114-121): the numeric
defaults apply to `category_id` and `episode_run_time`. -/
def normalize_value (value : Option JVal) (key : String) : JVal :=
  match value with
  | some (.jlist xs) => .jstr (String.intercalate ", " (xs.map pyStr))
  | some .jnull =>
      if key = "category_id" ∨ key = "episode_run_time" then .jint 0 else .jstr ""
  | none =>
      if key = "category_id" ∨ key = "episode_run_time" then .jint 0 else .jstr ""
  | some v => v

/-- One entry of the `flattened` dict built by `update_series` (lines
125-133).  Indexing a truthy non-sequence `backdrop_path` or joining a
non-iterable `category_ids` raises in the source (the update is aborted);
that is modelled as `none`. -/
def seriesFlattened (info : JVal) : String → Option (Option JVal)
  | "rating_5based" => some (info.jget "rating_5based")
  | "backdrop_path" =>
      match info.jget "backdrop_path" with
      | none => some (some (.jstr ""))
      | some v =>
          if v.pyTruthy then
            match v with
            | .jlist (x :: _) => some (some x)
            | .jstr s => some (some (.jstr (String.singleton (s.toList.headD ' '))))
            | _ => none
          else some (some (.jstr ""))
  | "youtube_trailer" => some (info.jget "youtube_trailer")
  | "tmdb_id" => some (some (.jstr (pyStr ((info.jget "tmdb").getD .jnull))))
  | "episode_run_time" => some (info.jget "episode_run_time")
  | "category_id" => some (info.jget "category_id")
  | "category_ids" =>
      match info.jget "category_ids" with
      | none => some (some (.jstr ""))
      | some (.jlist xs) => some (some (.jstr (String.intercalate "," (xs.map pyStr))))
      | some (.jstr s) =>
          some (some (.jstr (String.intercalate "," (s.toList.map String.singleton))))
      | some (.jobj fs) =>
          some (some (.jstr (String.intercalate "," (fs.map Prod.fst))))
      | some _ => none
  | _ => some none

/-- The SET values computed by `update_series` (lines 135-141); `none`
models an exception escaping before the SQL statement runs. -/
def seriesComputedCols (metadata : JVal) : Option (List (String × JVal)) :=
  let info := (metadata.jget "info").getD (.jobj [])
  SERIES_UPDATE_COLUMNS.foldr
    (fun k acc =>
      match acc, seriesFlattened info k with
      | some rest, some v => some ((k, normalize_value v k) :: rest)
      | _, _ => none)
    (some [])

/-- A `series` row as the enrichment pass sees it. -/
structure SeriesMetaRow where
  server_id : Nat
  series_id : JVal
  cols : List (String × JVal)
deriving DecidableEq

/-- `update_series` (lines 123-152):
`UPDATE series SET ... WHERE series_id=?` — again no `server_id` in the
WHERE clause.  `none` models the update aborting on a raised exception. -/
def update_series (db : List SeriesMetaRow) (series_id : JVal) (metadata : JVal) :
    Option (List SeriesMetaRow) :=
  match seriesComputedCols metadata with
  | none => none
  | some cols =>
      some (db.map fun r => if r.series_id == series_id then { r with cols := cols } else r)

end UpdateSeriesMetadata

/-! ### C3 theorems -/

/-- C3 counterexample: a record whose age is exactly the 24-hour TTL.  The
lookup returns `None` (the code requires `mtime > now - ttl`, strictly), yet
the claimed condition "age exceeds the TTL" is false at this input, so the
claimed if-and-only-if fails. -/
theorem c3_cache_boundary_counterexample :
    UpdateCats.load_from_cache (some ⟨0, [JVal.jint 1]⟩) 86400 24 = none ∧
      ¬ ((86400 : Int) - 0 > 24 * 3600) := by
  constructor
  · rfl
  · decide

/-- C3 (amended): with the default 24-hour TTL, the cache lookup returns
absent if and only if no record exists or the record's age is at least
(not strictly greater than) 24 hours; a strictly fresher record yields its
stored payload. -/
theorem c3_cache_lookup_characterization (r : UpdateCats.CacheRecord) (now : Int) :
    (UpdateCats.load_from_cache (some r) now 24 = none ↔ now - r.mtime ≥ 24 * 3600) ∧
      UpdateCats.load_from_cache none now 24 = none ∧
      (now - r.mtime < 24 * 3600 →
        UpdateCats.load_from_cache (some r) now 24 = some r.data) := by
  refine ⟨?_, rfl, ?_⟩
  · simp only [UpdateCats.load_from_cache, UpdateCats.is_cache_valid]
    by_cases hv : r.mtime > now - 24 * 3600
    · simp only [hv, decide_True, if_true]
      constructor
      · intro h; exact absurd h (by simp)
      · intro h; omega
    · simp only [hv, decide_False, if_false]
      constructor
      · intro _; omega
      · intro _; rfl
  · intro h
    simp only [UpdateCats.load_from_cache, UpdateCats.is_cache_valid]
    have hv : r.mtime > now - 24 * 3600 := by omega
    simp only [hv, decide_True, if_true]

/-- C3 witness: the characterization applied to a concrete fresh record. -/
theorem c3_cache_lookup_witness :
    (86400 : Int) - 1 < 24 * 3600 ∧
      UpdateCats.load_from_cache (some ⟨1, [JVal.jint 7]⟩) 86400 24 = some [JVal.jint 7] := by
  exact ⟨by decide, (c3_cache_lookup_characterization ⟨1, [JVal.jint 7]⟩ 86400).2.2 (by decide)⟩

/-! ### General list lemmas used across the claims -/

/-- `dropWhile` leaves a list unchanged when no element satisfies the
predicate. -/
theorem dropWhile_eq_self_of_forall {α : Type} {p : α → Bool} :
    ∀ {l : List α}, (∀ c ∈ l, p c = false) → l.dropWhile p = l
  | [], _ => rfl
  | x :: xs, h => by
      have hx : p x = false := h x (List.mem_cons_self x xs)
      simp only [List.dropWhile, hx]

/-- Stripping whitespace from a whitespace-free string changes nothing. -/
theorem pyStrip_eq_self {l : List Char} (h : ∀ c ∈ l, c.isWhitespace = false) :
    pyStrip l = l := by
  unfold pyStrip
  rw [dropWhile_eq_self_of_forall h]
  rw [dropWhile_eq_self_of_forall (fun c hc => h c (List.mem_reverse.1 hc))]
  exact List.reverse_reverse l

/-- A decimal digit is not whitespace. -/
theorem isDigit_not_isWhitespace {c : Char} (h : c.isDigit = true) :
    c.isWhitespace = false := by
  by_contra hw
  rw [Bool.not_eq_false] at hw
  simp only [Char.isWhitespace, Bool.or_eq_true, decide_eq_true_eq] at hw
  rcases hw with ((h1 | h1) | h1) | h1 <;> subst h1 <;> exact absurd h (by decide)

/-- Splitting a separator-free string yields a single chunk. -/
theorem splitOnChar_of_not_mem {c : Char} :
    ∀ {a : List Char}, c ∉ a → splitOnChar c a = [a]
  | [], _ => rfl
  | x :: xs, h => by
      have hx : ¬ x = c := fun hh => h (hh ▸ List.mem_cons_self x xs)
      have ih := splitOnChar_of_not_mem (fun hm => h (List.mem_cons_of_mem x hm))
      simp only [splitOnChar, hx, if_false, ih]

/-- Splitting peels off the chunk before the first separator. -/
theorem splitOnChar_append_sep {c : Char} {rest : List Char} :
    ∀ {a : List Char}, c ∉ a →
      splitOnChar c (a ++ c :: rest) = a :: splitOnChar c rest
  | [], _ => by simp [splitOnChar]
  | x :: xs, h => by
      have hx : ¬ x = c := fun hh => h (hh ▸ List.mem_cons_self x xs)
      have ih := @splitOnChar_append_sep c rest xs
        (fun hm => h (List.mem_cons_of_mem x hm))
      simp only [List.cons_append, splitOnChar, hx, if_false, List.append_eq, ih]

/-- `int()` succeeds on a non-empty plain digit string and returns its
value. -/
theorem pyInt_digits {l : List Char} (h1 : l ≠ [])
    (h2 : ∀ c ∈ l, c.isDigit = true) : pyInt l = some (digitsToNat l : Int) := by
  unfold pyInt
  rw [pyStrip_eq_self (fun c hc => isDigit_not_isWhitespace (h2 c hc))]
  match l, h1 with
  | cHead :: rest, _ =>
    have hd : cHead.isDigit = true := h2 cHead (List.mem_cons_self cHead rest)
    have hminus : ¬ cHead = '-' := fun hh => by subst hh; simp [Char.isDigit] at hd
    have hplus : ¬ cHead = '+' := fun hh => by subst hh; simp [Char.isDigit] at hd
    have hall : (cHead :: rest).all Char.isDigit = true := List.all_eq_true.2 h2
    simp only [hminus, hplus, hall, if_false, if_true]

/-! ### C9: HH:MM:SS duration parsing -/

/-- C9: for an `HH:MM:SS` input made of non-empty digit groups, the parsed
seconds equal `hours*3600 + minutes*60 + seconds` and the formatted duration
is the input string itself. -/
theorem c9_parse_duration_hms (a b c : List Char)
    (ha : a ≠ []) (hb : b ≠ []) (hc : c ≠ [])
    (hda : ∀ x ∈ a, x.isDigit = true) (hdb : ∀ x ∈ b, x.isDigit = true)
    (hdc : ∀ x ∈ c, x.isDigit = true) :
    UpdateMovies.parse_duration (a ++ ':' :: (b ++ ':' :: c)) =
      (some ((digitsToNat a : Int) * 3600 + (digitsToNat b : Int) * 60 +
        (digitsToNat c : Int)),
       some (a ++ ':' :: (b ++ ':' :: c))) := by
  have hcolon_a : ':' ∉ a := fun hm => by
    have := hda ':' hm; simp [Char.isDigit] at this
  have hcolon_b : ':' ∉ b := fun hm => by
    have := hdb ':' hm; simp [Char.isDigit] at this
  have hcolon_c : ':' ∉ c := fun hm => by
    have := hdc ':' hm; simp [Char.isDigit] at this
  have hws : ∀ x ∈ a ++ ':' :: (b ++ ':' :: c), x.isWhitespace = false := by
    intro x hx
    rcases List.mem_append.1 hx with h | h
    · exact isDigit_not_isWhitespace (hda x h)
    · rcases List.mem_cons.1 h with h | h
      · subst h; decide
      · rcases List.mem_append.1 h with h | h
        · exact isDigit_not_isWhitespace (hdb x h)
        · rcases List.mem_cons.1 h with h | h
          · subst h; decide
          · exact isDigit_not_isWhitespace (hdc x h)
  have hne : (a ++ ':' :: (b ++ ':' :: c)).isEmpty = false := by
    cases a <;> simp [List.isEmpty]
  unfold UpdateMovies.parse_duration
  rw [hne]
  simp only [Bool.false_eq_true, if_false, pyStrip_eq_self hws]
  have hnotall : (a ++ ':' :: (b ++ ':' :: c)).all Char.isDigit = false := by
    rw [Bool.eq_false_iff]
    intro hall
    have := List.all_eq_true.1 hall ':'
      (List.mem_append.2 (Or.inr (List.mem_cons_self _ _)))
    simp [Char.isDigit] at this
  rw [hnotall]
  have hcontains : (a ++ ':' :: (b ++ ':' :: c)).contains ':' = true := by
    simp [List.contains, List.elem_eq_mem]
  rw [Bool.and_false]
  simp only [Bool.false_eq_true, if_false, hcontains, if_true]
  rw [splitOnChar_append_sep hcolon_a, splitOnChar_append_sep hcolon_b,
    splitOnChar_of_not_mem hcolon_c]
  simp only [List.length_cons, List.length_nil]
  norm_num
  rw [pyInt_digits ha hda, pyInt_digits hb hdb, pyInt_digits hc hdc]

/-- C9 witness: the claim's concrete instance `"01:02:03"` yields 3723
seconds and the input as the formatted duration. -/
theorem c9_parse_duration_witness :
    UpdateMovies.parse_duration (chars "01:02:03") = (some 3723, some (chars "01:02:03")) := by
  have h := c9_parse_duration_hms (chars "01") (chars "02") (chars "03")
    (by decide) (by decide) (by decide) (by decide) (by decide) (by decide)
  simpa using h

/-! ### Lemmas about the URL-building helpers -/

/-- `dropWhile` distributes over an append whose first part contains an
element failing the predicate. -/
theorem dropWhile_append_of_exists {α : Type} {p : α → Bool} :
    ∀ {a : List α} (b : List α), (∃ x ∈ a, p x = false) →
      (a ++ b).dropWhile p = a.dropWhile p ++ b
  | [], _, h => by
      rcases h with ⟨x, hx, _⟩
      exact absurd hx (List.not_mem_nil x)
  | y :: ys, b, h => by
      rw [List.cons_append, List.dropWhile_cons, List.dropWhile_cons]
      by_cases hy : p y = true
      · rw [if_pos hy, if_pos hy]
        refine dropWhile_append_of_exists b ?_
        rcases h with ⟨x, hx, hpx⟩
        rcases List.mem_cons.1 hx with rfl | hx
        · rw [hy] at hpx; cases hpx
        · exact ⟨x, hx, hpx⟩
      · rw [if_neg hy, if_neg hy, List.cons_append]

/-- Removing trailing slashes of `l1 ++ l2` only touches `l2` when `l2` has
some non-slash character. -/
theorem rstripSlash_append_keep {l1 l2 : List Char} (h : ∃ x ∈ l2, (x == '/') = false) :
    rstripSlash (l1 ++ l2) = l1 ++ rstripSlash l2 := by
  unfold rstripSlash
  rw [List.reverse_append]
  rw [dropWhile_append_of_exists _ (by
    rcases h with ⟨x, hx, hpx⟩
    exact ⟨x, List.mem_reverse.2 hx, hpx⟩)]
  rw [List.reverse_append, List.reverse_reverse]

/-- The head surviving a `dropWhile` fails the predicate. -/
theorem head?_dropWhile_eq_some {α : Type} {p : α → Bool} :
    ∀ {l : List α} {x : α}, (l.dropWhile p).head? = some x → p x = false
  | [], _, h => by cases h
  | y :: ys, x, h => by
      rw [List.dropWhile_cons] at h
      by_cases hy : p y = true
      · rw [if_pos hy] at h
        exact head?_dropWhile_eq_some h
      · rw [if_neg hy] at h
        injection h with h1
        subst h1
        exact Bool.eq_false_iff.2 hy

/-- `rstrip("/")` never leaves a trailing slash. -/
theorem rstripSlash_getLast {l : List Char} : (rstripSlash l).getLast? ≠ some '/' := by
  unfold rstripSlash
  rw [List.getLast?_reverse]
  intro h
  have := head?_dropWhile_eq_some h
  simp at this

/-- `takeWhile` passes through a wholly-satisfying first part of an
append. -/
theorem takeWhile_append_all {α : Type} {p : α → Bool} :
    ∀ {a : List α} (b : List α), (∀ x ∈ a, p x = true) →
      (a ++ b).takeWhile p = a ++ b.takeWhile p
  | [], _, _ => rfl
  | y :: ys, b, h => by
      rw [List.cons_append, List.takeWhile_cons, if_pos (h y (List.mem_cons_self y ys)),
        takeWhile_append_all b (fun x hx => h x (List.mem_cons_of_mem y hx)),
        List.cons_append]

/-- `takeWhile` keeps a wholly-satisfying list. -/
theorem takeWhile_all {α : Type} {p : α → Bool} :
    ∀ {l : List α}, (∀ x ∈ l, p x = true) → l.takeWhile p = l
  | [], _ => rfl
  | y :: ys, h => by
      rw [List.takeWhile_cons, if_pos (h y (List.mem_cons_self y ys)),
        takeWhile_all (fun x hx => h x (List.mem_cons_of_mem y hx))]

/-- `contains` is false when every element differs. -/
theorem contains_eq_false_of_forall {l : List Char} {c : Char} (h : ∀ x ∈ l, x ≠ c) :
    l.contains c = false := by
  have hc : c ∉ l := fun hm => h c hm rfl
  simp [List.contains, List.elem_eq_mem, hc]

/-- A colon-free string has no scheme. -/
theorem hasScheme_eq_false_of_no_colon {l : List Char} (h : ∀ x ∈ l, x ≠ ':') :
    hasScheme l = false := by
  unfold hasScheme
  rw [Bool.or_eq_false_iff]
  constructor
  · by_contra hp
    rw [Bool.not_eq_false] at hp
    obtain ⟨t, ht⟩ := List.isPrefixOf_iff_prefix.1 hp
    have hmem : ':' ∈ l := by
      rw [← ht]
      exact List.mem_append_left _ (by decide)
    exact h ':' hmem rfl
  · by_contra hp
    rw [Bool.not_eq_false] at hp
    obtain ⟨t, ht⟩ := List.isPrefixOf_iff_prefix.1 hp
    have hmem : ':' ∈ l := by
      rw [← ht]
      exact List.mem_append_left _ (by decide)
    exact h ':' hmem rfl

/-- The part after the scheme marker of an `http://`-prefixed string. -/
theorem afterMarker_http (rest : List Char) :
    afterMarker schemeSep (httpScheme ++ rest) = rest := by
  simp [afterMarker, schemeSep, httpScheme, List.isPrefixOf]

/-- The part before the scheme marker of an `http://`-prefixed string. -/
theorem beforeMarker_http (rest : List Char) :
    beforeMarker schemeSep (httpScheme ++ rest) = ['h', 't', 't', 'p'] := by
  simp [beforeMarker, schemeSep, httpScheme, List.isPrefixOf]

/-- The VOD port step skips default and falsy ports. -/
theorem withPortMovies_default {b : List Char} {port : Option Nat}
    (h : port = none ∨ port = some 0 ∨ port = some 80 ∨ port = some 443) :
    withPortMovies b port = b := by
  rcases h with rfl | rfl | rfl | rfl <;> simp [withPortMovies]

/-- The VOD port step skips when a colon already follows the scheme. -/
theorem withPortMovies_colon {b : List Char} {p : Nat}
    (h : (afterMarker schemeSep b).contains ':' = true) :
    withPortMovies b (some p) = b := by
  by_cases hc : p ≠ 0 ∧ p ≠ 80 ∧ p ≠ 443
  · simp only [withPortMovies]
    rw [if_pos hc, if_pos h]
  · simp only [withPortMovies]
    rw [if_neg hc]

/-- The VOD port step skips ports failing the non-default test. -/
theorem withPortMovies_skip {b : List Char} {p : Nat}
    (h : ¬ (p ≠ 0 ∧ p ≠ 80 ∧ p ≠ 443)) :
    withPortMovies b (some p) = b := by
  simp [withPortMovies, h]

/-- The VOD port step appends a truthy non-default port. -/
theorem withPortMovies_append {b : List Char} {p : Nat} (h0 : p ≠ 0) (h80 : p ≠ 80)
    (h443 : p ≠ 443) (hcol : (afterMarker schemeSep b).contains ':' = false) :
    withPortMovies b (some p) = b ++ ':' :: natChars p := by
  simp only [withPortMovies]
  rw [if_pos ⟨h0, h80, h443⟩, hcol]
  simp only [Bool.false_eq_true, if_false]

/-- The categories/EPG port step skips `None`, `0` and `80`. -/
theorem withPort80_default {b : List Char} {port : Option Nat}
    (h : port = none ∨ port = some 0 ∨ port = some 80) :
    withPort80 b port = b := by
  rcases h with rfl | rfl | rfl <;> simp [withPort80]

/-- The categories/EPG port step appends any port other than 0 and 80 —
including 443. -/
theorem withPort80_append {b : List Char} {p : Nat} (h0 : p ≠ 0) (h80 : p ≠ 80)
    (hcol : (afterMarker schemeSep b).contains ':' = false) :
    withPort80 b (some p) = b ++ ':' :: natChars p := by
  simp only [withPort80]
  rw [if_pos ⟨h0, h80⟩, hcol]
  simp only [Bool.false_eq_true, if_false]

/-- `urljoin` with an absolute path on a clean host (plus a clean tail such
as an appended port) keeps scheme, host and tail. -/
theorem urljoinAbs_clean (host tail path : List Char)
    (hhost : ∀ c ∈ host, c ≠ ':' ∧ c ≠ '/' ∧ c ≠ '?' ∧ c ≠ '#')
    (htail : ∀ c ∈ tail, (c != '/' && c != '?' && c != '#') = true) :
    urljoinAbs (httpScheme ++ (host ++ tail)) path =
      httpScheme ++ host ++ tail ++ path := by
  unfold urljoinAbs netlocOf
  rw [afterMarker_http, beforeMarker_http]
  rw [takeWhile_append_all _ (fun c hc => by
    rcases hhost c hc with ⟨-, h1, h2, h3⟩
    simp [h1, h2, h3])]
  rw [takeWhile_all htail]
  simp [schemeSep, httpScheme]

/-- `urljoin` drops a trailing slash of the base. -/
theorem urljoinAbs_clean_slash (host path : List Char)
    (hhost : ∀ c ∈ host, c ≠ ':' ∧ c ≠ '/' ∧ c ≠ '?' ∧ c ≠ '#') :
    urljoinAbs (httpScheme ++ (host ++ ['/'])) path =
      httpScheme ++ host ++ path := by
  unfold urljoinAbs netlocOf
  rw [afterMarker_http, beforeMarker_http]
  rw [takeWhile_append_all _ (fun c hc => by
    rcases hhost c hc with ⟨-, h1, h2, h3⟩
    simp [h1, h2, h3])]
  simp [schemeSep, httpScheme]

/-- Prefix preservation core: stripping slashes of `http:// ++ X` keeps the
scheme when `X` has a non-slash character. -/
theorem c7aux_prefix_core (X : List Char) (hex : ∃ x ∈ X, (x == '/') = false) :
    httpScheme <+: rstripSlash (httpScheme ++ X) := by
  rw [rstripSlash_append_keep hex]
  exact List.prefix_append _ _

/-! ### C7: URL building -/

/-- C7 counterexample: the categories builder checks only `port != 80`, so
for the server `("example.com", port 443)` the port IS appended, although
the claim says a port is appended only when it is neither 80 nor 443. -/
theorem c7_port443_counterexample :
    UpdateCats.build_api_url (chars "example.com") (some 443) (chars "u") (chars "p") [] =
      chars "http://example.com:443/player_api.php?username=u&password=p" ∧
    UpdateCats.build_api_url (chars "example.com") (some 443) (chars "u") (chars "p") [] ≠
      UpdateCats.build_api_url (chars "example.com") (some 80) (chars "u") (chars "p") [] := by
  constructor
  · decide
  · decide

/-- C7 (amended): (1) a stored URL without scheme gets an `http://` prefix
(given some non-slash character); (2) holds as stated for the VOD builder —
the port is appended exactly when it is truthy, neither 80 nor 443, and no
colon follows the scheme; (3) the port-resolved base never ends in a slash
when the action path is concatenated, and for the urljoin-based builders a
trailing slash of a clean host is likewise dropped.  For the categories and
EPG builders, part (2) is weaker: only 0 and 80 suppress the port, so an
explicit 443 is appended. -/
theorem c7_url_building_amended :
    (∀ url port u pw a cid, hasScheme url = false → (∃ ch ∈ url, ch ≠ '/') →
        httpScheme <+: UpdateMovies.build_api_url url port u pw a cid) ∧
    (∀ url u pw a cid port,
        port = none ∨ port = some 0 ∨ port = some 80 ∨ port = some 443 →
        UpdateMovies.build_api_url url port u pw a cid =
          UpdateMovies.build_api_url url none u pw a cid) ∧
    (∀ url p u pw a cid,
        (afterMarker schemeSep (ensureScheme url)).contains ':' = true →
        UpdateMovies.build_api_url url (some p) u pw a cid =
          UpdateMovies.build_api_url url none u pw a cid) ∧
    (∀ url p u pw a cid, p ≠ 0 → p ≠ 80 → p ≠ 443 →
        (afterMarker schemeSep (ensureScheme url)).contains ':' = false →
        UpdateMovies.build_api_url url (some p) u pw a cid =
          rstripSlash (ensureScheme url ++ ':' :: natChars p) ++ chars "/player_api.php" ++
            '?' :: UpdateMovies.vodParams u pw a cid) ∧
    (∀ url port u pw a cid, ∃ B,
        UpdateMovies.build_api_url url port u pw a cid =
          B ++ chars "/player_api.php" ++ '?' :: UpdateMovies.vodParams u pw a cid ∧
        B.getLast? ≠ some '/') ∧
    (∀ host u pw a, cleanHost host →
        UpdateCats.build_api_url host (some 443) u pw a =
          httpScheme ++ host ++ ':' :: natChars 443 ++ chars "/player_api.php" ++
            '?' :: UpdateCats.catParams u pw a) ∧
    (∀ url u pw a port, port = none ∨ port = some 0 ∨ port = some 80 →
        UpdateCats.build_api_url url port u pw a =
          UpdateCats.build_api_url url none u pw a) ∧
    (∀ host u pw a, cleanHost host →
        UpdateCats.build_api_url (host ++ ['/']) none u pw a =
          httpScheme ++ host ++ chars "/player_api.php" ++ '?' :: UpdateCats.catParams u pw a ∧
        UpdateCats.build_api_url host none u pw a =
          httpScheme ++ host ++ chars "/player_api.php" ++ '?' :: UpdateCats.catParams u pw a) ∧
    (∀ host u pw, cleanHost host →
        DefaultEpgGrabber.build_epg_url host (some 443) u pw =
          httpScheme ++ host ++ ':' :: natChars 443 ++ chars "/xmltv.php" ++
            '?' :: DefaultEpgGrabber.epgParams u pw) ∧
    (∀ url u pw port, port = none ∨ port = some 0 ∨ port = some 80 →
        DefaultEpgGrabber.build_epg_url url port u pw =
          DefaultEpgGrabber.build_epg_url url none u pw) := by
  refine ⟨?_, ?_, ?_, ?_, ?_, ?_, ?_, ?_, ?_, ?_⟩
  · -- (1) for the VOD builder
    intro url port u pw a cid hns hex
    unfold UpdateMovies.build_api_url
    have hbase : ensureScheme url = httpScheme ++ url := by
      simp [ensureScheme, hns]
    rw [hbase]
    have hex' : ∃ x ∈ url, (x == '/') = false := by
      rcases hex with ⟨x, hx, hne⟩
      exact ⟨x, hx, by simp [hne]⟩
    have hext : ∀ {Y : List Char}, (∃ x ∈ Y, (x == '/') = false) →
        httpScheme <+: rstripSlash (httpScheme ++ Y) ++ chars "/player_api.php" ++
          '?' :: UpdateMovies.vodParams u pw a cid := fun hY =>
      (c7aux_prefix_core _ hY).trans ((List.prefix_append _ _).trans (List.prefix_append _ _))
    rcases port with _ | p
    · rw [withPortMovies_default (Or.inl rfl)]
      exact hext hex'
    · by_cases hcond : p ≠ 0 ∧ p ≠ 80 ∧ p ≠ 443
      · by_cases hcol : (afterMarker schemeSep (httpScheme ++ url)).contains ':' = true
        · rw [withPortMovies_colon hcol]
          exact hext hex'
        · rw [withPortMovies_append hcond.1 hcond.2.1 hcond.2.2 (Bool.eq_false_iff.2 hcol)]
          have hgoal := hext (Y := url ++ ':' :: natChars p)
            ⟨':', List.mem_append_right _ (List.mem_cons_self _ _), by decide⟩
          rw [← List.append_assoc] at hgoal
          exact hgoal
      · rw [withPortMovies_skip hcond]
        exact hext hex'
  · -- (2a) default ports are not appended by the VOD builder
    intro url u pw a cid port h
    unfold UpdateMovies.build_api_url
    rw [withPortMovies_default h, withPortMovies_default (Or.inl rfl)]
  · -- (2b) an embedded colon suppresses the port
    intro url p u pw a cid h
    unfold UpdateMovies.build_api_url
    rw [withPortMovies_colon h, withPortMovies_default (Or.inl rfl)]
  · -- (2c) a truthy non-default port is appended before slash-stripping
    intro url p u pw a cid h0 h80 h443 hcol
    unfold UpdateMovies.build_api_url
    rw [withPortMovies_append h0 h80 h443 hcol]
  · -- (3) the base is slash-stripped right before the path concatenation
    intro url port u pw a cid
    exact ⟨rstripSlash (withPortMovies (ensureScheme url) port), rfl, rstripSlash_getLast⟩
  · -- categories builder appends port 443 to a clean host
    intro host u pw a hh
    unfold UpdateCats.build_api_url
    have hns : hasScheme host = false :=
      hasScheme_eq_false_of_no_colon (fun c hc => (hh.2 c hc).1)
    have hbase : ensureScheme host = httpScheme ++ host := by
      simp [ensureScheme, hns]
    rw [hbase]
    have hcol : (afterMarker schemeSep (httpScheme ++ host)).contains ':' = false := by
      rw [afterMarker_http]
      exact contains_eq_false_of_forall (fun c hc => (hh.2 c hc).1)
    rw [withPort80_append (by decide) (by decide) hcol, List.append_assoc]
    rw [urljoinAbs_clean host (':' :: natChars 443) _ hh.2 (by decide)]
    rw [← List.append_assoc]
  · -- categories builder skips None, 0 and 80
    intro url u pw a port h
    unfold UpdateCats.build_api_url
    rw [withPort80_default h, withPort80_default (Or.inl rfl)]
  · -- categories builder drops a trailing slash via urljoin
    intro host u pw a hh
    have hns : hasScheme host = false :=
      hasScheme_eq_false_of_no_colon (fun c hc => (hh.2 c hc).1)
    have hns' : hasScheme (host ++ ['/']) = false := by
      refine hasScheme_eq_false_of_no_colon (fun c hc => ?_)
      rcases List.mem_append.1 hc with hc | hc
      · exact (hh.2 c hc).1
      · rcases List.mem_cons.1 hc with rfl | hc
        · decide
        · exact absurd hc (List.not_mem_nil c)
    constructor
    · unfold UpdateCats.build_api_url
      have hbase : ensureScheme (host ++ ['/']) = httpScheme ++ (host ++ ['/']) := by
        simp [ensureScheme, hns']
      rw [hbase, withPort80_default (Or.inl rfl)]
      rw [urljoinAbs_clean_slash host _ hh.2]
    · unfold UpdateCats.build_api_url
      have hbase : ensureScheme host = httpScheme ++ host := by
        simp [ensureScheme, hns]
      rw [hbase, withPort80_default (Or.inl rfl)]
      have := urljoinAbs_clean host [] (chars "/player_api.php") hh.2 (by intro c hc; cases hc)
      rw [List.append_nil] at this
      rw [this]
      simp
  · -- EPG builder appends port 443 to a clean host
    intro host u pw hh
    unfold DefaultEpgGrabber.build_epg_url
    have hns : hasScheme host = false :=
      hasScheme_eq_false_of_no_colon (fun c hc => (hh.2 c hc).1)
    have hbase : ensureScheme host = httpScheme ++ host := by
      simp [ensureScheme, hns]
    rw [hbase]
    have hcol : (afterMarker schemeSep (httpScheme ++ host)).contains ':' = false := by
      rw [afterMarker_http]
      exact contains_eq_false_of_forall (fun c hc => (hh.2 c hc).1)
    rw [withPort80_append (by decide) (by decide) hcol, List.append_assoc]
    rw [urljoinAbs_clean host (':' :: natChars 443) _ hh.2 (by decide)]
    rw [← List.append_assoc]
  · -- EPG builder skips None, 0 and 80
    intro url u pw port h
    unfold DefaultEpgGrabber.build_epg_url
    rw [withPort80_default h, withPort80_default (Or.inl rfl)]

/-- C7 witness: the amended theorem applied to the concrete server
`("example.com", 443)`. -/
theorem c7_url_building_witness :
    cleanHost (chars "example.com") ∧
    UpdateMovies.build_api_url (chars "example.com") (some 443) (chars "u") (chars "p") [] [] =
      UpdateMovies.build_api_url (chars "example.com") none (chars "u") (chars "p") [] [] ∧
    UpdateCats.build_api_url (chars "example.com") (some 443) (chars "u") (chars "p") [] =
      httpScheme ++ chars "example.com" ++ ':' :: natChars 443 ++ chars "/player_api.php" ++
        '?' :: UpdateCats.catParams (chars "u") (chars "p") [] :=
  ⟨by decide,
   c7_url_building_amended.2.1 (chars "example.com") (chars "u") (chars "p") [] []
     (some 443) (Or.inr (Or.inr (Or.inr rfl))),
   c7_url_building_amended.2.2.2.2.2.1 (chars "example.com") (chars "u") (chars "p") []
     (by decide)⟩

/-! ### C4: retry policy -/

/-- C4 counterexample: the VOD listing fetch does not retry.  On a cache
miss whose first attempt fails transiently, `download_vod_streams` returns
`[]` after exactly one attempt, while the per-item metadata fetcher on the
same outcome sequence retries once and succeeds. -/
theorem c4_vod_no_retry_counterexample :
    UpdateMovies.download_vod_streams none
        (fun i => if i = 0 then .netErr else .ok (.jobj [])) = ([], 1) ∧
    UpdateMovieMetadata.fetch_metadata_from_api
        (fun i => if i = 0 then .netErr else .ok (.jobj [])) = (some (.jobj []), [1]) := by
  constructor
  · rfl
  · rfl

/-- C4 (amended): the per-item metadata fetchers retry transient network
failures up to 3 attempts, sleeping 1 s then 2 s; a JSON-decoding failure or
a list-typed body is never retried and yields `None` for that call; the VOD
listing fetch performs at most one attempt (no retry), reporting any
failure as an empty result. -/
theorem c4_fetch_retry_amended :
    (∀ outcomes : Nat → FetchOutcome, outcomes 0 = .netErr → outcomes 1 = .netErr →
        UpdateMovieMetadata.fetch_metadata_from_api outcomes =
          ((match outcomes 2 with
            | .ok (.jlist _) => none
            | .ok v => some v
            | .badJson => none
            | .netErr => none), [1, 2])) ∧
    (∀ outcomes : Nat → FetchOutcome, outcomes 0 = .badJson →
        UpdateMovieMetadata.fetch_metadata_from_api outcomes = (none, [])) ∧
    (∀ (outcomes : Nat → FetchOutcome) (xs : List JVal), outcomes 0 = .ok (.jlist xs) →
        UpdateMovieMetadata.fetch_metadata_from_api outcomes = (none, [])) ∧
    (∀ outcomes : Nat → FetchOutcome, outcomes 0 = .netErr → outcomes 1 = .netErr →
        UpdateSeriesMetadata.fetch_series_metadata outcomes =
          ((match outcomes 2 with
            | .ok (.jlist _) => none
            | .ok v => some v
            | .badJson => none
            | .netErr => none), [1, 2])) ∧
    (∀ outcomes : Nat → FetchOutcome, outcomes 0 = .badJson →
        UpdateSeriesMetadata.fetch_series_metadata outcomes = (none, [])) ∧
    (∀ (cached : Option (List JVal)) (outcomes : Nat → FetchOutcome),
        (UpdateMovies.download_vod_streams cached outcomes).2 ≤ 1) := by
  refine ⟨?_, ?_, ?_, ?_, ?_, ?_⟩
  · intro outcomes h0 h1
    cases h2 : outcomes 2 with
    | netErr => simp [UpdateMovieMetadata.fetch_metadata_from_api, fetchRetryGo, h0, h1, h2]
    | badJson => simp [UpdateMovieMetadata.fetch_metadata_from_api, fetchRetryGo, h0, h1, h2]
    | ok v =>
        cases v <;>
          simp [UpdateMovieMetadata.fetch_metadata_from_api, fetchRetryGo, h0, h1, h2]
  · intro outcomes h0
    simp [UpdateMovieMetadata.fetch_metadata_from_api, fetchRetryGo, h0]
  · intro outcomes xs h0
    simp [UpdateMovieMetadata.fetch_metadata_from_api, fetchRetryGo, h0]
  · intro outcomes h0 h1
    cases h2 : outcomes 2 with
    | netErr => simp [UpdateSeriesMetadata.fetch_series_metadata, fetchRetryGo, h0, h1, h2]
    | badJson => simp [UpdateSeriesMetadata.fetch_series_metadata, fetchRetryGo, h0, h1, h2]
    | ok v =>
        cases v <;>
          simp [UpdateSeriesMetadata.fetch_series_metadata, fetchRetryGo, h0, h1, h2]
  · intro outcomes h0
    simp [UpdateSeriesMetadata.fetch_series_metadata, fetchRetryGo, h0]
  · intro cached outcomes
    rcases cached with _ | data
    · cases h0 : outcomes 0 with
      | netErr => simp [UpdateMovies.download_vod_streams, h0]
      | badJson => simp [UpdateMovies.download_vod_streams, h0]
      | ok v => cases v <;> simp [UpdateMovies.download_vod_streams, h0]
    · simp [UpdateMovies.download_vod_streams]

/-- C4 witness: two transient failures then a dict body — the metadata
fetcher succeeds on the third attempt after sleeping 1 s and 2 s. -/
theorem c4_fetch_retry_witness :
    UpdateMovieMetadata.fetch_metadata_from_api
        (fun i => if i ≤ 1 then .netErr else .ok (.jobj [])) = (some (.jobj []), [1, 2]) := by
  have h := c4_fetch_retry_amended.1
    (fun i => if i ≤ 1 then .netErr else .ok (.jobj [])) rfl rfl
  simpa using h

/-! ### C2: EPG import replaces rows only on full success -/

/-- C2: every failure exit of the EPG importer — no server, failed
connection test, no XML in hand, or zero parsed entries — leaves the
existing `epg_data` rows exactly as they were; only when XML is in hand and
parses to a non-empty entry set are the old rows deleted, and then the new
table contents are computed from the parsed entries alone (independent of
what was stored before). -/
theorem c2_epg_replace_only_on_success :
    (∀ (w : DefaultEpgGrabber.EpgWorld) (db : List EpgEntry),
        w.serverFound = false → DefaultEpgGrabber.epgMain w db = db) ∧
    (∀ (w : DefaultEpgGrabber.EpgWorld) (db : List EpgEntry),
        w.connOk = false → DefaultEpgGrabber.epgMain w db = db) ∧
    (∀ (w : DefaultEpgGrabber.EpgWorld) (db : List EpgEntry),
        (w.cachedXml = none ∨ w.cachedXml = some []) →
        (w.fetched = none ∨ w.fetched = some []) →
        DefaultEpgGrabber.epgMain w db = db) ∧
    (∀ (w : DefaultEpgGrabber.EpgWorld) (db : List EpgEntry) (xml : List Nat),
        (w.cachedXml = some xml ∧ xml ≠ [] ∨
          (w.cachedXml = none ∨ w.cachedXml = some []) ∧ w.fetched = some xml ∧ xml ≠ []) →
        w.parse xml = [] →
        DefaultEpgGrabber.epgMain w db = db) ∧
    (∀ (w : DefaultEpgGrabber.EpgWorld) (db : List EpgEntry) (xml : List Nat),
        w.serverFound = true → w.connOk = true →
        (w.cachedXml = some xml ∧ xml ≠ [] ∨
          (w.cachedXml = none ∨ w.cachedXml = some []) ∧ w.fetched = some xml ∧ xml ≠ []) →
        w.parse xml ≠ [] →
        DefaultEpgGrabber.epgMain w db =
          DefaultEpgGrabber.insert_epg_entries db (w.parse xml)) ∧
    (∀ (db db' : List EpgEntry) (entries : List EpgEntry),
        DefaultEpgGrabber.insert_epg_entries db entries =
          DefaultEpgGrabber.insert_epg_entries db' entries) := by
  refine ⟨?_, ?_, ?_, ?_, ?_, ?_⟩
  · intro w db h
    simp [DefaultEpgGrabber.epgMain, h]
  · intro w db h
    simp [DefaultEpgGrabber.epgMain, h]
  · intro w db hc hf
    unfold DefaultEpgGrabber.epgMain
    rcases hc with hc | hc <;> rcases hf with hf | hf <;> simp [hc, hf]
  · intro w db xml hx hp
    unfold DefaultEpgGrabber.epgMain
    rcases hx with ⟨hc, hne⟩ | ⟨hc, hf, hne⟩
    · rcases hc with hc
      simp [hc, hne, hp]
    · rcases hc with hc | hc <;> simp [hc, hf, hne, hp]
  · intro w db xml hfound hconn hx hp
    unfold DefaultEpgGrabber.epgMain
    rcases hx with ⟨hc, hne⟩ | ⟨hc, hf, hne⟩
    · simp [hfound, hconn, hc, hne, hp]
    · rcases hc with hc | hc <;> simp [hfound, hconn, hc, hf, hne, hp]
  · intro db db' entries
    rfl

/-- C2 witness: with old guide data in the table, a failed fetch leaves the
row untouched, while a successful parse of one entry replaces the table
with exactly that entry. -/
theorem c2_epg_replace_witness :
    DefaultEpgGrabber.epgMain
        ⟨true, true, none, none, fun _ => [⟨some "c", some "s", some "e", some "T",
          none, none, none, none⟩]⟩
        [⟨some "old", some "s0", some "e0", some "T0", none, none, none, none⟩] =
      [⟨some "old", some "s0", some "e0", some "T0", none, none, none, none⟩] ∧
    DefaultEpgGrabber.epgMain
        ⟨true, true, some [1], none, fun _ => [⟨some "c", some "s", some "e", some "T",
          none, none, none, none⟩]⟩
        [⟨some "old", some "s0", some "e0", some "T0", none, none, none, none⟩] =
      [⟨some "c", some "s", some "e", some "T", none, none, none, none⟩] := by
  constructor
  · exact c2_epg_replace_only_on_success.2.2.1 _ _ (Or.inl rfl) (Or.inl rfl)
  · have h := c2_epg_replace_only_on_success.2.2.2.2.1
      ⟨true, true, some [1], none, fun _ => [⟨some "c", some "s", some "e", some "T",
        none, none, none, none⟩]⟩
      [⟨some "old", some "s0", some "e0", some "T0", none, none, none, none⟩]
      [1] rfl rfl (Or.inl ⟨rfl, by decide⟩) (by simp)
    rw [h]
    rfl

/-! ### C5: malformed categories responses -/

/-- C5: a non-list categories body is returned as `[]` and never cached;
the cache is written only with validated list payloads; and a server whose
three content-type responses are all non-list yields totals `(0, 0, 0)`
with both the table and the cache untouched. -/
theorem c5_malformed_categories :
    (∀ (cache : List (String × List JVal)) (ct : String) (v : JVal),
        cache.lookup ct = none → v.isList = false →
        UpdateCats.download_categories cache ct (some v) = ([], cache)) ∧
    (∀ (cache : List (String × List JVal)) (ct : String) (resp : Option JVal),
        (UpdateCats.download_categories cache ct resp).2 = cache ∨
        ∃ xs, resp = some (.jlist xs) ∧
          (UpdateCats.download_categories cache ct resp).2 = (ct, xs) :: cache) ∧
    (∀ (db : List UpdateCats.CatRow) (cache : List (String × List JVal))
        (serverId : Nat) (resp : String → Option JVal),
        (∀ ct ∈ ["live", "vod", "series"], cache.lookup ct = none) →
        (∀ ct ∈ ["live", "vod", "series"], ∃ v, resp ct = some v ∧ v.isList = false) →
        UpdateCats.process_categories_for_server db cache serverId resp =
          (db, cache, 0, 0, 0)) := by
  have hdl : ∀ (cache : List (String × List JVal)) (ct : String) (v : JVal),
      cache.lookup ct = none → v.isList = false →
      UpdateCats.download_categories cache ct (some v) = ([], cache) := by
    intro cache ct v hlu hv
    unfold UpdateCats.download_categories
    by_cases hct : ct ≠ "live" ∧ ct ≠ "vod" ∧ ct ≠ "series"
    · rw [if_pos hct]
    · rw [if_neg hct, hlu]
      cases v <;> simp_all [JVal.isList]
  refine ⟨hdl, ?_, ?_⟩
  · intro cache ct resp
    unfold UpdateCats.download_categories
    by_cases hct : ct ≠ "live" ∧ ct ≠ "vod" ∧ ct ≠ "series"
    · rw [if_pos hct]; exact Or.inl rfl
    · rw [if_neg hct]
      cases hlu : cache.lookup ct with
      | some data => exact Or.inl rfl
      | none =>
          cases resp with
          | none => exact Or.inl rfl
          | some v =>
              cases v with
              | jlist xs => exact Or.inr ⟨xs, rfl, rfl⟩
              | jnull => exact Or.inl rfl
              | jbool b => exact Or.inl rfl
              | jint n => exact Or.inl rfl
              | jstr s => exact Or.inl rfl
              | jobj fs => exact Or.inl rfl
  · intro db cache serverId resp hcache hresp
    obtain ⟨v1, hr1, hl1⟩ := hresp "live" (by simp)
    obtain ⟨v2, hr2, hl2⟩ := hresp "vod" (by simp)
    obtain ⟨v3, hr3, hl3⟩ := hresp "series" (by simp)
    have h1 := hdl cache "live" v1 (hcache "live" (by simp)) hl1
    have h2 := hdl cache "vod" v2 (hcache "vod" (by simp)) hl2
    have h3 := hdl cache "series" v3 (hcache "series" (by simp)) hl3
    unfold UpdateCats.process_categories_for_server
    simp only [List.foldl]
    unfold UpdateCats.processContentType
    simp only [hr1, hr2, hr3, h1, h2, h3, List.isEmpty_nil, if_true]

/-- C5 witness: an object-typed (non-list) body for every content type
yields `(0, 0, 0)` and leaves an empty cache empty. -/
theorem c5_malformed_categories_witness :
    UpdateCats.process_categories_for_server [] [] 1 (fun _ => some (.jobj [])) =
      ([], [], 0, 0, 0) :=
  c5_malformed_categories.2.2 [] [] 1 (fun _ => some (.jobj []))
    (by intro ct _; rfl) (by intro ct _; exact ⟨.jobj [], rfl, rfl⟩)

/-! ### Counting lemmas for the VOD dedupe -/

/-- A failed existence check means zero matching rows. -/
theorem countPair_zero_of_exists_false {db : List UpdateMovies.VodKeyRow} {S : Nat}
    {sid : JVal} (h : UpdateMovies.stream_exists db S sid = false) :
    UpdateMovies.countPair db S sid = 0 := by
  unfold UpdateMovies.stream_exists at h
  unfold UpdateMovies.countPair
  rw [List.length_eq_zero, List.filter_eq_nil_iff]
  exact List.any_eq_false.mp h

/-- A successful existence check means at least one matching row. -/
theorem countPair_pos_of_exists_true {db : List UpdateMovies.VodKeyRow} {S : Nat}
    {sid : JVal} (h : UpdateMovies.stream_exists db S sid = true) :
    1 ≤ UpdateMovies.countPair db S sid := by
  unfold UpdateMovies.stream_exists at h
  obtain ⟨r, hr, hp⟩ := List.any_eq_true.mp h
  unfold UpdateMovies.countPair
  have : r ∈ db.filter fun r => r.server_id == S && r.stream_id == sid :=
    List.mem_filter.mpr ⟨hr, hp⟩
  calc 1 ≤ _ := List.length_pos.mpr (List.ne_nil_of_mem this)

/-- Appending one row changes the pair count by its own match. -/
theorem countPair_append_single {db : List UpdateMovies.VodKeyRow} {S2 S : Nat}
    {cat : Nat} {sid2 sid : JVal} :
    UpdateMovies.countPair (db ++ [⟨S2, cat, sid2⟩]) S sid =
      UpdateMovies.countPair db S sid + (if S2 = S ∧ sid2 = sid then 1 else 0) := by
  unfold UpdateMovies.countPair
  rw [List.filter_append, List.length_append]
  congr 1
  by_cases h : S2 = S ∧ sid2 = sid
  · rcases h with ⟨rfl, rfl⟩
    simp
  · rw [if_neg h]
    rw [not_and_or] at h
    rcases h with h | h
    · have hb : (S2 == S && sid2 == sid) = false := by simp [h]
      simp [List.filter, hb]
    · have hb : (S2 == S && sid2 == sid) = false := by simp [h]
      simp [List.filter, hb]

/-- One step of the stream loop never pushes an at-most-once pair above
one. -/
theorem vodStep_count_le {S : Nat} {m : List (Int × Nat)}
    {a : List UpdateMovies.VodKeyRow × Nat × Nat} {sd sid : JVal}
    (h : UpdateMovies.countPair a.1 S sid ≤ 1) :
    UpdateMovies.countPair (UpdateMovies.vodStep S m a sd).1 S sid ≤ 1 := by
  unfold UpdateMovies.vodStep
  cases sd with
  | jobj fs =>
      cases hsid : (JVal.jobj fs).jgetVal "stream_id" with
      | none => exact h
      | some sid0 =>
          by_cases hex : UpdateMovies.stream_exists a.1 S sid0 = true
          · simp only [hex, if_true]
            exact h
          · rw [Bool.not_eq_true] at hex
            simp only [hex, Bool.false_eq_true, if_false]
            unfold UpdateMovies.insert_stream
            rw [hsid]
            by_cases hr : (ratingConvOK ((JVal.jobj fs).jget "rating") &&
                ratingConvOK ((JVal.jobj fs).jget "rating_5based")) = true
            · simp only [hr, if_true]
              rw [countPair_append_single]
              have h0 := countPair_zero_of_exists_false hex
              by_cases hmatch : S = S ∧ sid0 = sid
              · rcases hmatch with ⟨-, rfl⟩
                rw [h0]
                simp
              · rw [if_neg hmatch]
                omega
            · rw [Bool.not_eq_true] at hr
              simp only [hr, Bool.false_eq_true, if_false]
              exact h
  | jnull => exact h
  | jbool b => exact h
  | jint n => exact h
  | jstr s => exact h
  | jlist xs => exact h

/-- One step of the stream loop never removes rows, so pair counts are
monotone. -/
theorem vodStep_count_ge {S : Nat} {m : List (Int × Nat)}
    {a : List UpdateMovies.VodKeyRow × Nat × Nat} {sd sid : JVal} :
    UpdateMovies.countPair a.1 S sid ≤
      UpdateMovies.countPair (UpdateMovies.vodStep S m a sd).1 S sid := by
  unfold UpdateMovies.vodStep
  cases sd with
  | jobj fs =>
      cases hsid : (JVal.jobj fs).jgetVal "stream_id" with
      | none => exact le_refl _
      | some sid0 =>
          by_cases hex : UpdateMovies.stream_exists a.1 S sid0 = true
          · simp only [hex, if_true]
            exact le_refl _
          · rw [Bool.not_eq_true] at hex
            simp only [hex, Bool.false_eq_true, if_false]
            unfold UpdateMovies.insert_stream
            rw [hsid]
            by_cases hr : (ratingConvOK ((JVal.jobj fs).jget "rating") &&
                ratingConvOK ((JVal.jobj fs).jget "rating_5based")) = true
            · simp only [hr, if_true]
              rw [countPair_append_single]
              omega
            · rw [Bool.not_eq_true] at hr
              simp only [hr, Bool.false_eq_true, if_false]
              exact le_refl _
  | jnull => exact le_refl _
  | jbool b => exact le_refl _
  | jint n => exact le_refl _
  | jstr s => exact le_refl _
  | jlist xs => exact le_refl _

/-- Processing a record the insert accepts guarantees at least one matching
row afterwards. -/
theorem vodStep_good {S : Nat} {m : List (Int × Nat)}
    {a : List UpdateMovies.VodKeyRow × Nat × Nat} {sd sid : JVal}
    (hg : UpdateMovies.goodVodRecord sd sid) :
    1 ≤ UpdateMovies.countPair (UpdateMovies.vodStep S m a sd).1 S sid := by
  obtain ⟨⟨fs, rfl⟩, hsid, hr1, hr2⟩ := hg
  unfold UpdateMovies.vodStep
  rw [hsid]
  by_cases hex : UpdateMovies.stream_exists a.1 S sid = true
  · simp only [hex, if_true]
    exact countPair_pos_of_exists_true hex
  · rw [Bool.not_eq_true] at hex
    simp only [hex, Bool.false_eq_true, if_false]
    unfold UpdateMovies.insert_stream
    rw [hsid]
    simp only [hr1, hr2, Bool.and_self, if_true]
    rw [countPair_append_single]
    simp

/-- The stream fold keeps an at-most-once pair at most once. -/
theorem vodFold_count_le {S : Nat} {m : List (Int × Nat)} {sid : JVal} :
    ∀ (streams : List JVal) (a : List UpdateMovies.VodKeyRow × Nat × Nat),
      UpdateMovies.countPair a.1 S sid ≤ 1 →
      UpdateMovies.countPair
        (streams.foldl (UpdateMovies.vodStep S m) a).1 S sid ≤ 1
  | [], _, h => h
  | _ :: rest, _a, h => vodFold_count_le rest _ (vodStep_count_le h)

/-- The stream fold never removes rows. -/
theorem vodFold_count_ge {S : Nat} {m : List (Int × Nat)} {sid : JVal} :
    ∀ (streams : List JVal) (a : List UpdateMovies.VodKeyRow × Nat × Nat),
      UpdateMovies.countPair a.1 S sid ≤
        UpdateMovies.countPair (streams.foldl (UpdateMovies.vodStep S m) a).1 S sid
  | [], _ => le_refl _
  | _ :: rest, _a => le_trans vodStep_count_ge (vodFold_count_ge rest _)

/-- A fold over a list containing an acceptable record for `sid` ends with
at least one matching row. -/
theorem vodFold_good {S : Nat} {m : List (Int × Nat)} {sid : JVal} :
    ∀ (streams : List JVal) (a : List UpdateMovies.VodKeyRow × Nat × Nat),
      (∃ sd ∈ streams, UpdateMovies.goodVodRecord sd sid) →
      1 ≤ UpdateMovies.countPair (streams.foldl (UpdateMovies.vodStep S m) a).1 S sid
  | [], _, h => by
      rcases h with ⟨sd, hmem, -⟩
      exact absurd hmem (List.not_mem_nil sd)
  | sd :: rest, a, h => by
      rw [List.foldl_cons]
      rcases h with ⟨sd', hmem, hg⟩
      rcases List.mem_cons.1 hmem with rfl | hmem
      · exact le_trans (vodStep_good hg) (vodFold_count_ge rest _)
      · exact vodFold_good rest _ ⟨sd', hmem, hg⟩

/-! ### C1: idempotent VOD synchronization -/

/-- C1 counterexample: a record whose `rating` fails `float()` is rejected
by `insert_stream` on every run, so two runs over this remote data leave
zero rows for `(server 1, stream 5)` — not exactly one — and the second run
does not count the record as existing (it re-attempts the insert). -/
theorem c1_bad_rating_counterexample :
    UpdateMovies.process_streams_for_server [] 1 []
        [JVal.jobj [("stream_id", JVal.jint 5), ("rating", JVal.jstr "bad")]] =
      ([], 1, 0, 0) ∧
    UpdateMovies.process_streams_for_server
        (UpdateMovies.process_streams_for_server [] 1 []
          [JVal.jobj [("stream_id", JVal.jint 5), ("rating", JVal.jstr "bad")]]).1 1 []
        [JVal.jobj [("stream_id", JVal.jint 5), ("rating", JVal.jstr "bad")]] =
      ([], 1, 0, 0) ∧
    UpdateMovies.countPair
        (UpdateMovies.process_streams_for_server
          (UpdateMovies.process_streams_for_server [] 1 []
            [JVal.jobj [("stream_id", JVal.jint 5), ("rating", JVal.jstr "bad")]]).1 1 []
          [JVal.jobj [("stream_id", JVal.jint 5), ("rating", JVal.jstr "bad")]]).1
        1 (JVal.jint 5) = 0 := by
  refine ⟨by decide, by decide, by decide⟩

/-- C1 (amended): starting from a table with at most one row per
`(server, stream_id)` pair, two consecutive synchronizer runs over
identical remote data leave at most one row for every pair; a pair already
present stays at exactly one; and a pair carried by a record the insert
accepts (stream_id present, rating fields parseable) ends at exactly one —
the existence check before every insert prevents any duplicate. -/
theorem c1_vod_sync_idempotent (db : List UpdateMovies.VodKeyRow) (S : Nat)
    (mapping : List (Int × Nat)) (streams : List JVal) (sid : JVal)
    (h : UpdateMovies.countPair db S sid ≤ 1) :
    UpdateMovies.countPair
        (UpdateMovies.process_streams_for_server
          (UpdateMovies.process_streams_for_server db S mapping streams).1
          S mapping streams).1 S sid ≤ 1 ∧
    (UpdateMovies.countPair db S sid = 1 →
      UpdateMovies.countPair
        (UpdateMovies.process_streams_for_server
          (UpdateMovies.process_streams_for_server db S mapping streams).1
          S mapping streams).1 S sid = 1) ∧
    ((∃ sd ∈ streams, UpdateMovies.goodVodRecord sd sid) →
      UpdateMovies.countPair
        (UpdateMovies.process_streams_for_server
          (UpdateMovies.process_streams_for_server db S mapping streams).1
          S mapping streams).1 S sid = 1) := by
  by_cases hs : streams.isEmpty = true
  · have hp : ∀ d : List UpdateMovies.VodKeyRow,
        UpdateMovies.process_streams_for_server d S mapping streams = (d, 0, 0, 0) := by
      intro d
      unfold UpdateMovies.process_streams_for_server
      rw [if_pos hs]
    simp only [hp]
    refine ⟨h, fun h1 => h1, fun hex => ?_⟩
    rcases hex with ⟨sd, hmem, -⟩
    rw [List.isEmpty_iff] at hs
    subst hs
    exact absurd hmem (List.not_mem_nil sd)
  · have hp : ∀ d : List UpdateMovies.VodKeyRow,
        (UpdateMovies.process_streams_for_server d S mapping streams).1 =
          (streams.foldl (UpdateMovies.vodStep S mapping) (d, 0, 0)).1 := by
      intro d
      unfold UpdateMovies.process_streams_for_server
      rw [if_neg hs]
    simp only [hp]
    have hle1 := @vodFold_count_le S mapping sid streams (db, 0, 0) h
    have hle2 := @vodFold_count_le S mapping sid streams
      ((streams.foldl (UpdateMovies.vodStep S mapping) (db, 0, 0)).1, 0, 0) hle1
    refine ⟨hle2, fun h1 => ?_, fun hex => ?_⟩
    · have g1 := @vodFold_count_ge S mapping sid streams (db, 0, 0)
      have g2 := @vodFold_count_ge S mapping sid streams
        ((streams.foldl (UpdateMovies.vodStep S mapping) (db, 0, 0)).1, 0, 0)
      simp only at g1 g2
      omega
    · have g2 := @vodFold_good S mapping sid streams
        ((streams.foldl (UpdateMovies.vodStep S mapping) (db, 0, 0)).1, 0, 0) hex
      omega

/-- C1 witness: a fresh table, one well-formed remote record — after two
runs exactly one row for `(server 1, stream 5)`. -/
theorem c1_vod_sync_witness :
    UpdateMovies.countPair
        (UpdateMovies.process_streams_for_server
          (UpdateMovies.process_streams_for_server [] 1 []
            [JVal.jobj [("stream_id", JVal.jint 5)]]).1
          1 [] [JVal.jobj [("stream_id", JVal.jint 5)]]).1 1 (JVal.jint 5) = 1 :=
  (c1_vod_sync_idempotent [] 1 [] [JVal.jobj [("stream_id", JVal.jint 5)]]
      (JVal.jint 5) (by decide)).2.2
    ⟨JVal.jobj [("stream_id", JVal.jint 5)], List.mem_cons_self _ _,
      ⟨[("stream_id", JVal.jint 5)], rfl⟩, rfl, rfl, rfl⟩

/-! ### C6: unmapped remote categories -/

/-- C6 counterexample: `insert_series` stores NULL for an unmapped remote
category — the row is inserted but carries NO local category id, while the
VOD insert assigns the sentinel 0 in the same situation.  The series
synchronizer therefore does not assign "the defined default/sentinel local
category id". -/
theorem c6_series_null_category_counterexample :
    UpdateSeries.insert_series [] 1
        (JVal.jobj [("series_id", JVal.jint 7), ("category_id", JVal.jint 99)]) [] =
      ([⟨1, some (JVal.jint 7), none⟩], true) ∧
    UpdateMovies.insert_stream [] 1
        (JVal.jobj [("stream_id", JVal.jint 7), ("category_id", JVal.jint 99)]) [] =
      ([⟨1, 0, JVal.jint 7⟩], true) ∧
    (none : Option Nat) ≠ some 0 := by
  refine ⟨by decide, by decide, by decide⟩

/-- C6 (amended): an unmapped (or absent) remote category id never drops
the row or raises in any of the three synchronizers, but the assigned value
differs per entity type: the VOD insert falls back to the sentinel local id
0; the series insert stores NULL (no sentinel); the live insert falls back
to the server's first live category row, or the string `"0"` when the
server has none. -/
theorem c6_unmapped_category_amended :
    (∀ (db : List UpdateMovies.VodKeyRow) (S : Nat) (sd sid : JVal)
        (mapping : List (Int × Nat)),
        UpdateMovies.goodVodRecord sd sid →
        UpdateMovies.insert_stream db S sd mapping =
          (db ++ [⟨S, UpdateMovies.localCategoryId sd mapping, sid⟩], true)) ∧
    (∀ (sd : JVal) (mapping : List (Int × Nat)),
        (sd.jget "category_id" = none ∨
          ∃ v, sd.jget "category_id" = some v ∧ (pyIntOfJVal v = none ∨
            ∃ i, pyIntOfJVal v = some i ∧ mapping.lookup i = none)) →
        UpdateMovies.localCategoryId sd mapping = 0) ∧
    (∀ (db : List UpdateSeries.SeriesRow) (S : Nat) (sd : JVal)
        (mapping : List (JVal × Nat)),
        ratingConvOK (sd.jget "rating") = true →
        (sd.jget "category_id" = none ∨
          ∃ v, sd.jget "category_id" = some v ∧
            (v.pyTruthy = false ∨ mapping.lookup v = none)) →
        UpdateSeries.insert_series db S sd mapping =
          (db ++ [⟨S, sd.jget "series_id", none⟩], true)) ∧
    (∀ (db : List UpdateLive.LiveRow) (S : Nat) (sd sid : JVal)
        (mapping : List (String × String)) (liveCats : List JVal),
        sd.jgetVal "stream_id" = some sid →
        mapping.lookup (pyStr ((sd.jget "category_id").getD (JVal.jstr ""))) = none →
        UpdateLive.insert_stream db S sd mapping liveCats =
          (db ++ [⟨S, liveCats.headD (JVal.jstr "0"), sid⟩], true)) := by
  refine ⟨?_, ?_, ?_, ?_⟩
  · intro db S sd sid mapping hg
    obtain ⟨⟨fs, rfl⟩, hsid, hr1, hr2⟩ := hg
    unfold UpdateMovies.insert_stream
    rw [hsid]
    simp only [hr1, hr2, Bool.and_self, if_true]
  · intro sd mapping hyp
    unfold UpdateMovies.localCategoryId
    rcases hyp with hc | ⟨v, hc, hv⟩
    · rw [hc]
    · simp only [hc]
      rcases hv with hv | ⟨i, hv, hl⟩
      · simp only [hv]
      · simp only [hv, hl]
        rfl
  · intro db S sd mapping hr hyp
    unfold UpdateSeries.insert_series
    simp only [hr, if_true]
    rcases hyp with hc | ⟨v, hc, hv⟩
    · rw [hc]
    · simp only [hc]
      rcases hv with hv | hv
      · simp only [hv, Bool.false_eq_true, if_false]
      · by_cases ht : v.pyTruthy = true
        · simp only [ht, if_true, hv]
        · rw [Bool.not_eq_true] at ht
          simp only [ht, Bool.false_eq_true, if_false]
  · intro db S sd sid mapping liveCats hsid hl
    unfold UpdateLive.insert_stream
    simp only [hsid, hl]

/-- C6 witness: a VOD record and a series record whose remote category 77
has no mapping entry — both rows are inserted, the VOD one under category
0, the series one with a NULL category. -/
theorem c6_unmapped_category_witness :
    UpdateMovies.insert_stream [] 2
        (JVal.jobj [("stream_id", JVal.jint 9), ("category_id", JVal.jstr "77")]) [] =
      ([⟨2, UpdateMovies.localCategoryId
          (JVal.jobj [("stream_id", JVal.jint 9), ("category_id", JVal.jstr "77")]) [],
        JVal.jint 9⟩], true) ∧
    UpdateSeries.insert_series [] 2
        (JVal.jobj [("series_id", JVal.jint 9), ("category_id", JVal.jint 77)]) [] =
      ([⟨2, (JVal.jobj [("series_id", JVal.jint 9),
          ("category_id", JVal.jint 77)]).jget "series_id", none⟩], true) :=
  ⟨c6_unmapped_category_amended.1 [] 2 _ (JVal.jint 9) []
      ⟨⟨[("stream_id", JVal.jint 9), ("category_id", JVal.jstr "77")], rfl⟩, rfl, rfl, rfl⟩,
   c6_unmapped_category_amended.2.2.1 [] 2 _ [] rfl
      (Or.inr ⟨JVal.jint 77, rfl, Or.inr rfl⟩)⟩

/-! ### C8: title metadata flattening and defaulting -/

/-- Looking a key up in a key-indexed map of a list containing it yields
the function value at that key. -/
theorem lookup_map_self {β : Type} {f : String → β} :
    ∀ {l : List String} {key : String}, key ∈ l →
      List.lookup key (l.map fun k => (k, f k)) = some (f key)
  | k :: rest, key, h => by
      rw [List.map_cons]
      by_cases hk : key = k
      · subst hk
        simp [List.lookup]
      · have hb : (key == k) = false := by simp [hk]
        rw [List.lookup_cons]
        simp only [hb]
        exact lookup_map_self (by
          rcases List.mem_cons.1 h with rfl | hm
          · exact absurd rfl hk
          · exact hm)

/-- C8 counterexample: with an empty detail payload, the `duration` column
is set to the empty string — not the number 0 the claim asserts — while
`duration_secs` and `bitrate` do receive 0. -/
theorem c8_duration_empty_string_counterexample :
    List.lookup "duration" (UpdateMovieMetadata.movieComputedCols (JVal.jobj [])) =
      some (JVal.jstr "") ∧
    List.lookup "duration_secs" (UpdateMovieMetadata.movieComputedCols (JVal.jobj [])) =
      some (JVal.jint 0) ∧
    List.lookup "bitrate" (UpdateMovieMetadata.movieComputedCols (JVal.jobj [])) =
      some (JVal.jint 0) ∧
    JVal.jstr "" ≠ JVal.jint 0 := by
  refine ⟨by decide, by decide, by decide, by decide⟩

/-- C8 (amended): every UPDATE column is set to the normalized flattened
value; on shared keys (other than the renamed `release_date`) the
`movie_data` sub-record takes precedence over `info`; list values join to
comma-delimited strings; an absent/null value becomes the number 0 exactly
for `duration_secs` and `bitrate` (NOT for the text column `duration`), and
the empty string for every other column. -/
theorem c8_metadata_flattening_amended :
    (∀ (metadata : JVal) (key : String), key ∈ UpdateMovieMetadata.UPDATE_COLUMNS →
        List.lookup key (UpdateMovieMetadata.movieComputedCols metadata) =
          some (UpdateMovieMetadata.normalize_value
            (UpdateMovieMetadata.flattenedGet metadata key) key)) ∧
    (∀ (ifs mds : List (String × JVal)) (key : String) (v : JVal),
        key ≠ "release_date" →
        (JVal.jobj mds).jget key = some v →
        UpdateMovieMetadata.flattenedGet
          (JVal.jobj [("info", JVal.jobj ifs), ("movie_data", JVal.jobj mds)]) key =
          some v) ∧
    (∀ (key : String) (xs : List JVal),
        UpdateMovieMetadata.normalize_value (some (JVal.jlist xs)) key =
          JVal.jstr (String.intercalate ", " (xs.map pyStr))) ∧
    (∀ (value : Option JVal) (key : String),
        (value = none ∨ value = some JVal.jnull) →
        (key = "duration_secs" ∨ key = "bitrate" →
          UpdateMovieMetadata.normalize_value value key = JVal.jint 0) ∧
        (key ≠ "duration_secs" → key ≠ "bitrate" →
          UpdateMovieMetadata.normalize_value value key = JVal.jstr "")) := by
  refine ⟨?_, ?_, ?_, ?_⟩
  · intro metadata key hk
    exact lookup_map_self hk
  · intro ifs mds key v hne hmd
    unfold UpdateMovieMetadata.flattenedGet
    rw [if_neg hne]
    unfold UpdateMovieMetadata.mergedGet
    have h1 : (JVal.jobj [("info", JVal.jobj ifs),
        ("movie_data", JVal.jobj mds)]).jget "movie_data" = some (JVal.jobj mds) := rfl
    rw [h1]
    simp only [Option.some_bind, hmd]
  · intro key xs
    rfl
  · intro value key hval
    constructor
    · intro hkey
      rcases hval with rfl | rfl <;>
        simp only [UpdateMovieMetadata.normalize_value, if_pos hkey]
    · intro h1 h2
      have hkey : ¬ (key = "duration_secs" ∨ key = "bitrate") := by
        rintro (h | h)
        · exact h1 h
        · exact h2 h
      rcases hval with rfl | rfl <;>
        simp only [UpdateMovieMetadata.normalize_value, if_neg hkey]

/-- C8 witness: the amended theorem at a concrete payload whose
`movie_data` overrides `info` on `plot`, with `cast` a list and `bitrate`
absent. -/
theorem c8_metadata_flattening_witness :
    UpdateMovieMetadata.flattenedGet
        (JVal.jobj [("info", JVal.jobj [("plot", JVal.jstr "from info")]),
          ("movie_data", JVal.jobj [("plot", JVal.jstr "from movie_data")])]) "plot" =
      some (JVal.jstr "from movie_data") ∧
    UpdateMovieMetadata.normalize_value
        (some (JVal.jlist [JVal.jstr "a", JVal.jstr "b"])) "cast" =
      JVal.jstr "a, b" ∧
    UpdateMovieMetadata.normalize_value none "bitrate" = JVal.jint 0 ∧
    UpdateMovieMetadata.normalize_value none "plot" = JVal.jstr "" := by
  refine ⟨c8_metadata_flattening_amended.2.1 _ _ "plot" _ (by decide) rfl, ?_, ?_, ?_⟩
  · have h := c8_metadata_flattening_amended.2.2.1 "cast" [JVal.jstr "a", JVal.jstr "b"]
    simpa using h
  · exact (c8_metadata_flattening_amended.2.2.2 none "bitrate" (Or.inl rfl)).1 (Or.inr rfl)
  · exact (c8_metadata_flattening_amended.2.2.2 none "plot" (Or.inl rfl)).2
      (by decide) (by decide)

/-! ### C10: enrichment updates match by remote id alone -/

/-- C10: the enrichment UPDATE statements select rows by the remote
identifier only.  Row count and key columns are preserved; every row whose
`stream_id` (resp. `series_id`) equals the target — whatever its
`server_id` — gets the freshly computed columns; rows with a different
remote id are untouched. -/
theorem c10_enrichment_matches_remote_id_only :
    (∀ (db : List UpdateMovieMetadata.VodMetaRow) (sid meta : JVal),
        (UpdateMovieMetadata.update_movie db sid meta).length = db.length ∧
        (UpdateMovieMetadata.update_movie db sid meta).map
            (fun r => (r.server_id, r.stream_id)) =
          db.map (fun r => (r.server_id, r.stream_id))) ∧
    (∀ (db : List UpdateMovieMetadata.VodMetaRow) (sid meta : JVal)
        (r : UpdateMovieMetadata.VodMetaRow), r ∈ db → r.stream_id = sid →
        { r with cols := UpdateMovieMetadata.movieComputedCols meta } ∈
          UpdateMovieMetadata.update_movie db sid meta) ∧
    (∀ (db : List UpdateMovieMetadata.VodMetaRow) (sid meta : JVal)
        (r : UpdateMovieMetadata.VodMetaRow), r ∈ db → r.stream_id ≠ sid →
        r ∈ UpdateMovieMetadata.update_movie db sid meta) ∧
    (∀ (db : List UpdateMovieMetadata.VodMetaRow) (sid meta : JVal)
        (r2 : UpdateMovieMetadata.VodMetaRow),
        r2 ∈ UpdateMovieMetadata.update_movie db sid meta → r2.stream_id = sid →
        r2.cols = UpdateMovieMetadata.movieComputedCols meta) ∧
    (∀ (db : List UpdateSeriesMetadata.SeriesMetaRow) (sid meta : JVal)
        (scols : List (String × JVal)),
        UpdateSeriesMetadata.seriesComputedCols meta = some scols →
        UpdateSeriesMetadata.update_series db sid meta =
          some (db.map fun r =>
            if r.series_id == sid then { r with cols := scols } else r)) ∧
    (∀ (db : List UpdateSeriesMetadata.SeriesMetaRow) (sid meta : JVal)
        (scols : List (String × JVal)) (r : UpdateSeriesMetadata.SeriesMetaRow)
        (out : List UpdateSeriesMetadata.SeriesMetaRow),
        UpdateSeriesMetadata.seriesComputedCols meta = some scols →
        r ∈ db → r.series_id = sid →
        UpdateSeriesMetadata.update_series db sid meta = some out →
        { r with cols := scols } ∈ out) := by
  refine ⟨?_, ?_, ?_, ?_, ?_, ?_⟩
  · intro db sid meta
    constructor
    · simp [UpdateMovieMetadata.update_movie]
    · unfold UpdateMovieMetadata.update_movie
      rw [List.map_map]
      refine List.map_congr_left ?_
      intro r _
      by_cases h : r.stream_id = sid
      · simp [h]
      · simp [h]
  · intro db sid meta r hr hsid
    unfold UpdateMovieMetadata.update_movie
    have hb : (r.stream_id == sid) = true := by simp [hsid]
    have : ({ r with cols := UpdateMovieMetadata.movieComputedCols meta } :
        UpdateMovieMetadata.VodMetaRow) =
        (fun r => if r.stream_id == sid then
          { r with cols := UpdateMovieMetadata.movieComputedCols meta } else r) r := by
      simp [hb]
    rw [this]
    exact List.mem_map_of_mem _ hr
  · intro db sid meta r hr hsid
    unfold UpdateMovieMetadata.update_movie
    have hb : (r.stream_id == sid) = false := by simp [hsid]
    have : r = (fun r => if r.stream_id == sid then
        { r with cols := UpdateMovieMetadata.movieComputedCols meta } else r) r := by
      simp [hb]
    rw [this]
    exact List.mem_map_of_mem _ hr
  · intro db sid meta r2 hr2 hsid
    obtain ⟨r, hr, heq⟩ := List.mem_map.1 hr2
    by_cases h : r.stream_id = sid
    · have hb : (r.stream_id == sid) = true := by simp [h]
      rw [if_pos hb] at heq
      rw [← heq]
    · have hb : (r.stream_id == sid) = false := by simp [h]
      rw [hb] at heq
      simp only [Bool.false_eq_true, if_false] at heq
      rw [← heq] at hsid
      exact absurd hsid h
  · intro db sid meta scols hs
    unfold UpdateSeriesMetadata.update_series
    rw [hs]
  · intro db sid meta scols r out hs hr hsid hout
    unfold UpdateSeriesMetadata.update_series at hout
    rw [hs] at hout
    injection hout with hout
    subst hout
    have hb : (r.series_id == sid) = true := by simp [hsid]
    have : ({ r with cols := scols } : UpdateSeriesMetadata.SeriesMetaRow) =
        (fun r => if r.series_id == sid then { r with cols := scols } else r) r := by
      simp [hb]
    rw [this]
    exact List.mem_map_of_mem _ hr

/-- C10 witness: two servers carry remote stream 7; enriching stream 7
rewrites the second server's row as well. -/
theorem c10_enrichment_witness :
    ({ server_id := 2, stream_id := JVal.jint 7,
       cols := UpdateMovieMetadata.movieComputedCols
         (JVal.jobj [("info", JVal.jobj [("plot", JVal.jstr "NEW")])]) } :
      UpdateMovieMetadata.VodMetaRow) ∈
      UpdateMovieMetadata.update_movie
        [⟨1, JVal.jint 7, []⟩, ⟨2, JVal.jint 7, []⟩] (JVal.jint 7)
        (JVal.jobj [("info", JVal.jobj [("plot", JVal.jstr "NEW")])]) :=
  c10_enrichment_matches_remote_id_only.2.1
    [⟨1, JVal.jint 7, []⟩, ⟨2, JVal.jint 7, []⟩] (JVal.jint 7)
    (JVal.jobj [("info", JVal.jobj [("plot", JVal.jstr "NEW")])])
    ⟨2, JVal.jint 7, []⟩ (by decide) rfl
